import Mathlib

/-!
Shallow embedding of the payment-instruction parser service
(`src/unnamed/part_001` of the repository): tokenizer, lexical validators,
grammar state machine, business-rule validator, error prioritizer and the
orchestrator `parseInstruction` (the spec's public `processInstruction`).

Modelling conventions:
* JS strings are Lean `String`s; JS `null`/`undefined` become `Option`.
* JS numbers holding integral amounts/balances become `Int` (the service
  only ever adds/subtracts integers on the paths the claims talk about).
* `parseInt(tok, 10)` is modelled by `jsParseInt` below, including its
  leading-digits behaviour and `NaN` as `none`.
* JS truthiness of a possibly-null string (`s && ...`) is modelled by
  an explicit `Option` match plus an emptiness test.
* `isFutureDate` reads the wall clock; the orchestrator is therefore
  parameterized by an oracle `isFuture : String → Bool` standing for
  "this yyyy-mm-dd string is strictly after today's UTC calendar date".
-/

/-- An input account record: `{ id, balance, currency }`. -/
structure Account where
  id : String
  balance : Int
  currency : String
deriving Repr, DecidableEq

/-- A violation record `{ code, message }`. -/
structure Violation where
  code : String
  message : String
deriving Repr, DecidableEq

/-- The state-machine output `result` object. -/
structure ParseResult where
  type : Option String
  amount : Option Int
  currency : Option String
  debitAccount : Option String
  creditAccount : Option String
  executeBy : Option String
  errors : List Violation
deriving Repr, DecidableEq

/-- An account view in the response: `{ id, balance, balance_before, currency }`. -/
structure AccountView where
  id : String
  balance : Int
  balance_before : Int
  currency : String
deriving Repr, DecidableEq

/-- The externally visible response object. -/
structure Response where
  type : Option String
  amount : Option Int
  currency : Option String
  debit_account : Option String
  credit_account : Option String
  execute_by : Option String
  status : String
  status_reason : String
  status_code : String
  accounts : List AccountView
deriving Repr, DecidableEq

namespace PaymentMessages

def INVALID_AMOUNT : String := "Amount must be a positive integer"

def CURRENCY_MISMATCH : String := "Account currency mismatch"

def UNSUPPORTED_CURRENCY : String :=
  "Unsupported currency. Only NGN, USD, GBP, and GHS are supported"

def INSUFFICIENT_FUNDS : String := "Insufficient funds in debit account"

def SAME_ACCOUNT_ERROR : String := "Debit and credit accounts cannot be the same"

def ACCOUNT_NOT_FOUND : String := "Account not found"

def INVALID_ACCOUNT_ID : String := "Invalid account ID format"

def INVALID_DATE_FORMAT : String := "Invalid date format. Must be YYYY-MM-DD"

def MISSING_KEYWORD : String := "Missing required keyword"

def INVALID_KEYWORD_ORDER : String := "Invalid keyword order"

def MALFORMED_INSTRUCTION : String := "Malformed instruction: unable to parse keywords"

def TRANSACTION_SUCCESSFUL : String := "Transaction executed successfully"

def TRANSACTION_PENDING : String := "Transaction scheduled for future execution"

end PaymentMessages

namespace STATUS_CODES

def SUCCESSFUL : String := "AP00"

def PENDING : String := "AP02"

def MALFORMED : String := "SY03"

def MISSING_KEYWORD : String := "SY01"

def INVALID_ORDER : String := "SY02"

def INVALID_AMOUNT : String := "AM01"

def INVALID_ACCOUNT_ID : String := "AC04"

def INVALID_DATE : String := "DT01"

def ACCOUNT_NOT_FOUND : String := "AC03"

def UNSUPPORTED_CURRENCY : String := "CU02"

def CURRENCY_MISMATCH : String := "CU01"

def SAME_ACCOUNT : String := "AC02"

def INSUFFICIENT_FUNDS : String := "AC01"

end STATUS_CODES

/-- `SUPPORTED_CURRENCIES` from the source. -/
def SUPPORTED_CURRENCIES : List String := ["NGN", "USD", "GBP", "GHS"]

/-- Helper for `tokenize`: walk the characters accumulating the current
word (reversed); whitespace flushes the accumulated word.  This is the
hand-rolled equivalent of the source's
`trim().replace(whitespace-runs, " ").split(" ").filter(nonempty)`. -/
def wordsAux : List Char → List Char → List String
  | [], cur => if cur = [] then [] else [String.mk cur.reverse]
  | c :: cs, cur =>
    if c.isWhitespace then
      if cur = [] then wordsAux cs [] else String.mk cur.reverse :: wordsAux cs []
    else wordsAux cs (c :: cur)

/-- `tokenize(instruction)`: split the instruction into its maximal runs of
non-whitespace characters, dropping all whitespace. -/
def tokenize (instruction : String) : List String :=
  wordsAux instruction.toList []

/-- `isValidAccountId(id)`: every character is an ASCII letter, digit,
`-`, `.` or `@`; the empty string passes. -/
def isValidAccountId (id : String) : Bool :=
  id.toList.all fun c =>
    (('a' ≤ c && c ≤ 'z') || ('A' ≤ c && c ≤ 'Z')) ||
    ('0' ≤ c && c ≤ '9') ||
    (c == '-' || c == '.' || c == '@')

/-- `isValidDateFormat(date)`: length 10, dashes at positions 4 and 7,
eight digits elsewhere, month in [1,12] and day in [1,31]. -/
def isValidDateFormat (date : String) : Bool :=
  match date.toList with
  | [y1, y2, y3, y4, s1, m1, m2, s2, d1, d2] =>
    s1 == '-' && s2 == '-' &&
    ([y1, y2, y3, y4, m1, m2, d1, d2].all Char.isDigit) &&
    (let monthNum := 10 * (m1.toNat - 48) + (m2.toNat - 48)
     let dayNum := 10 * (d1.toNat - 48) + (d2.toNat - 48)
     decide (1 ≤ monthNum) && decide (monthNum ≤ 12) &&
     decide (1 ≤ dayNum) && decide (dayNum ≤ 31))
  | _ => false

/-- `String.toUpper`, re-implemented by structural recursion over the
character list so the kernel can evaluate it inside proofs. -/
def toUpperStr (s : String) : String :=
  String.mk (s.toList.map Char.toUpper)

/-- `String.contains`, re-implemented over the character list so the
kernel can evaluate it inside proofs. -/
def containsChar (s : String) (c : Char) : Bool :=
  s.toList.contains c

/-- JS `parseInt(s, 10)`: skip leading whitespace, read an optional sign,
then the maximal run of leading decimal digits; `NaN` (here `none`) when
that run is empty, otherwise the signed value. -/
def jsParseInt (s : String) : Option Int :=
  let cs := s.toList.dropWhile Char.isWhitespace
  let signAndRest : Int × List Char :=
    match cs with
    | '-' :: r => (-1, r)
    | '+' :: r => (1, r)
    | r => (1, r)
  let ds := signAndRest.2.takeWhile Char.isDigit
  if ds = [] then none
  else some (signAndRest.1 * (Int.ofNat (ds.foldl (fun acc c => 10 * acc + (c.toNat - 48)) 0)))

/-- The state machine's states. -/
inductive States where
  | START
  | TYPE
  | AMOUNT
  | CURRENCY
  | FIRST_KEYWORD
  | FIRST_ACCOUNT_KEYWORD
  | FIRST_ACCOUNT
  | FOR
  | SECOND_TYPE
  | SECOND_KEYWORD
  | SECOND_ACCOUNT_KEYWORD
  | SECOND_ACCOUNT
  | ON
  | DATE
  | COMPLETE
deriving Repr, DecidableEq

/-- Outcome of processing one token: either continue in a new state
(`index++` in the source loop) or halt immediately (the `return result`
branches, i.e. the fatal errors). -/
inductive Step where
  | cont (state : States) (result : ParseResult)
  | halt (result : ParseResult)
deriving Repr, DecidableEq

/-- The body of the source's `while` loop: one `switch (state)` dispatch
on the current token. -/
def stepSM (state : States) (token : String) (r : ParseResult) : Step :=
  let tokenUpper := toUpperStr token
  match state with
  | .START =>
    if tokenUpper = "DEBIT" ∨ tokenUpper = "CREDIT" then
      .cont .TYPE { r with type := some tokenUpper }
    else
      .halt { r with errors := r.errors ++
        [⟨STATUS_CODES.MISSING_KEYWORD, PaymentMessages.MISSING_KEYWORD⟩] }
  | .TYPE =>
    if containsChar token '.' then
      .cont .AMOUNT { r with errors := r.errors ++
        [⟨STATUS_CODES.INVALID_AMOUNT, PaymentMessages.INVALID_AMOUNT⟩] }
    else
      match jsParseInt token with
      | none =>
        .cont .AMOUNT { r with errors := r.errors ++
          [⟨STATUS_CODES.INVALID_AMOUNT, PaymentMessages.INVALID_AMOUNT⟩] }
      | some amount =>
        if amount ≤ 0 then
          .cont .AMOUNT { r with errors := r.errors ++
            [⟨STATUS_CODES.INVALID_AMOUNT, PaymentMessages.INVALID_AMOUNT⟩] }
        else
          .cont .AMOUNT { r with amount := some amount }
  | .AMOUNT =>
    .cont .CURRENCY { r with currency := some tokenUpper }
  | .CURRENCY =>
    let expectedFirst := if r.type = some "DEBIT" then "FROM" else "TO"
    if tokenUpper = expectedFirst then
      .cont .FIRST_KEYWORD r
    else
      .halt { r with errors := r.errors ++
        [⟨STATUS_CODES.INVALID_ORDER, PaymentMessages.INVALID_KEYWORD_ORDER⟩] }
  | .FIRST_KEYWORD =>
    if tokenUpper = "ACCOUNT" then
      .cont .FIRST_ACCOUNT_KEYWORD r
    else
      .halt { r with errors := r.errors ++
        [⟨STATUS_CODES.MISSING_KEYWORD, PaymentMessages.MISSING_KEYWORD⟩] }
  | .FIRST_ACCOUNT_KEYWORD =>
    if r.type = some "DEBIT" then
      .cont .FIRST_ACCOUNT { r with debitAccount := some token }
    else
      .cont .FIRST_ACCOUNT { r with creditAccount := some token }
  | .FIRST_ACCOUNT =>
    if tokenUpper = "FOR" then
      .cont .FOR r
    else
      .halt { r with errors := r.errors ++
        [⟨STATUS_CODES.MISSING_KEYWORD, PaymentMessages.MISSING_KEYWORD⟩] }
  | .FOR =>
    let expectedSecondType := if r.type = some "DEBIT" then "CREDIT" else "DEBIT"
    if tokenUpper = expectedSecondType then
      .cont .SECOND_TYPE r
    else
      .halt { r with errors := r.errors ++
        [⟨STATUS_CODES.INVALID_ORDER, PaymentMessages.INVALID_KEYWORD_ORDER⟩] }
  | .SECOND_TYPE =>
    let expectedSecond := if r.type = some "DEBIT" then "TO" else "FROM"
    if tokenUpper = expectedSecond then
      .cont .SECOND_KEYWORD r
    else
      .halt { r with errors := r.errors ++
        [⟨STATUS_CODES.INVALID_ORDER, PaymentMessages.INVALID_KEYWORD_ORDER⟩] }
  | .SECOND_KEYWORD =>
    if tokenUpper = "ACCOUNT" then
      .cont .SECOND_ACCOUNT_KEYWORD r
    else
      .halt { r with errors := r.errors ++
        [⟨STATUS_CODES.MISSING_KEYWORD, PaymentMessages.MISSING_KEYWORD⟩] }
  | .SECOND_ACCOUNT_KEYWORD =>
    if r.type = some "DEBIT" then
      .cont .SECOND_ACCOUNT { r with creditAccount := some token }
    else
      .cont .SECOND_ACCOUNT { r with debitAccount := some token }
  | .SECOND_ACCOUNT =>
    if tokenUpper = "ON" then
      .cont .ON r
    else
      .halt { r with errors := r.errors ++
        [⟨STATUS_CODES.MALFORMED, PaymentMessages.MALFORMED_INSTRUCTION⟩] }
  | .ON =>
    if isValidDateFormat token then
      .cont .DATE { r with executeBy := some token }
    else
      .cont .DATE { r with errors := r.errors ++
        [⟨STATUS_CODES.INVALID_DATE, PaymentMessages.INVALID_DATE_FORMAT⟩] }
  | .DATE =>
    .halt { r with errors := r.errors ++
      [⟨STATUS_CODES.MALFORMED, PaymentMessages.MALFORMED_INSTRUCTION⟩] }
  | .COMPLETE =>
    -- the `default` arm of the source switch (never entered: the loop
    -- guard stops on COMPLETE and no other state is missing a case)
    .halt { r with errors := r.errors ++
      [⟨STATUS_CODES.MALFORMED, PaymentMessages.MALFORMED_INSTRUCTION⟩] }

/-- The post-loop epilogue: promote SECOND_ACCOUNT/DATE to COMPLETE, and
if the machine did not complete and no error was recorded, add MALFORMED. -/
def finishSM (state : States) (r : ParseResult) : ParseResult :=
  let state2 := if state = States.SECOND_ACCOUNT ∨ state = States.DATE
    then States.COMPLETE else state
  if state2 ≠ States.COMPLETE ∧ r.errors = [] then
    { r with errors := r.errors ++
      [⟨STATUS_CODES.MALFORMED, PaymentMessages.MALFORMED_INSTRUCTION⟩] }
  else r

/-- The source's token loop: consume tokens one at a time until they run
out, a fatal branch returns, or the state is COMPLETE; then run the
epilogue. -/
def runSM : List String → States → ParseResult → ParseResult
  | [], state, r => finishSM state r
  | token :: rest, state, r =>
    if state = States.COMPLETE then finishSM state r
    else
      match stepSM state token r with
      | .cont s2 r2 => runSM rest s2 r2
      | .halt r2 => r2

/-- The initial `result` object of `parseWithStateMachine`. -/
def emptyParseResult : ParseResult :=
  ⟨none, none, none, none, none, none, []⟩

/-- `parseWithStateMachine(tokens)`. -/
def parseWithStateMachine (tokens : List String) : ParseResult :=
  runSM tokens .START emptyParseResult

/-- What `validateBusinessRules` returns: all accumulated violations plus
the resolved account records. -/
structure ValidationResult where
  errors : List Violation
  debitAccount : Option Account
  creditAccount : Option Account
deriving Repr, DecidableEq

/-- `validateBusinessRules(parsed, accounts)`: copy the syntax errors and
append, in source order, each business-rule violation whose trigger
condition holds.  `match`es on `Option` plus emptiness checks model JS
truthiness of the possibly-null parsed fields. -/
def validateBusinessRules (parsed : ParseResult) (accounts : List Account) :
    ValidationResult :=
  let debitAccount := parsed.debitAccount.bind fun d => accounts.find? fun a => a.id == d
  let creditAccount := parsed.creditAccount.bind fun c => accounts.find? fun a => a.id == c
  let errors := parsed.errors
    ++ (match parsed.debitAccount with
        | some d =>
          if d ≠ "" ∧ isValidAccountId d = false then
            [⟨STATUS_CODES.INVALID_ACCOUNT_ID, PaymentMessages.INVALID_ACCOUNT_ID ++ ": " ++ d⟩]
          else []
        | none => [])
    ++ (match parsed.creditAccount with
        | some c =>
          if c ≠ "" ∧ isValidAccountId c = false then
            [⟨STATUS_CODES.INVALID_ACCOUNT_ID, PaymentMessages.INVALID_ACCOUNT_ID ++ ": " ++ c⟩]
          else []
        | none => [])
    ++ (if parsed.debitAccount = parsed.creditAccount then
          [⟨STATUS_CODES.SAME_ACCOUNT, PaymentMessages.SAME_ACCOUNT_ERROR⟩]
        else [])
    ++ (match parsed.currency with
        | some c =>
          if c ≠ "" ∧ SUPPORTED_CURRENCIES.contains c = false then
            [⟨STATUS_CODES.UNSUPPORTED_CURRENCY, PaymentMessages.UNSUPPORTED_CURRENCY⟩]
          else []
        | none => [])
    ++ (match parsed.debitAccount, debitAccount with
        | some d, none =>
          if d ≠ "" then
            [⟨STATUS_CODES.ACCOUNT_NOT_FOUND, PaymentMessages.ACCOUNT_NOT_FOUND ++ ": " ++ d⟩]
          else []
        | _, _ => [])
    ++ (match parsed.creditAccount, creditAccount with
        | some c, none =>
          if c ≠ "" then
            [⟨STATUS_CODES.ACCOUNT_NOT_FOUND, PaymentMessages.ACCOUNT_NOT_FOUND ++ ": " ++ c⟩]
          else []
        | _, _ => [])
    ++ (match debitAccount, creditAccount with
        | some da, some ca =>
          (if da.currency ≠ ca.currency then
            [⟨STATUS_CODES.CURRENCY_MISMATCH, PaymentMessages.CURRENCY_MISMATCH⟩]
          else [])
          ++ (match parsed.currency with
              | some c =>
                if c ≠ "" ∧ toUpperStr da.currency ≠ c then
                  [⟨STATUS_CODES.CURRENCY_MISMATCH,
                    "Currency mismatch: instruction says " ++ c ++
                    " but account has " ++ toUpperStr da.currency⟩]
                else []
              | none => [])
          ++ (match parsed.amount with
              | some amt =>
                if amt ≠ 0 ∧ da.balance < amt then
                  [⟨STATUS_CODES.INSUFFICIENT_FUNDS,
                    PaymentMessages.INSUFFICIENT_FUNDS ++ ": has " ++ toString da.balance ++
                    " " ++ da.currency ++ ", needs " ++ toString amt⟩]
                else []
              | none => [])
        | _, _ => [])
  ⟨errors, debitAccount, creditAccount⟩

/-- The priority table of `selectPrimaryError`, with `priority[code] || 999`
for unmapped codes. -/
def priorityOf (code : String) : Nat :=
  if code = "SY03" then 1
  else if code = "SY01" then 2
  else if code = "SY02" then 3
  else if code = "AM01" then 4
  else if code = "AC04" then 5
  else if code = "DT01" then 6
  else if code = "AC03" then 7
  else if code = "CU02" then 8
  else if code = "CU01" then 9
  else if code = "AC02" then 10
  else if code = "AC01" then 11
  else 999

/-- One step of the `forEach` scan in `selectPrimaryError`: replace the
accumulator only on a strictly lower priority value. -/
def selStep (acc : Option Violation × Nat) (e : Violation) : Option Violation × Nat :=
  if priorityOf e.code < acc.2 then (some e, priorityOf e.code) else acc

/-- `selectPrimaryError(errors)`: scan the list keeping the first
violation of the lowest priority seen; `null` when nothing beat the
initial `lowestPriority = 999`. -/
def selectPrimaryError (errors : List Violation) : Option Violation :=
  (errors.foldl selStep (none, 999)).1

/-- JS truthiness + future test for `parsed.executeBy && isFutureDate(...)`. -/
def isPendingOf (isFuture : String → Bool) (executeBy : Option String) : Bool :=
  match executeBy with
  | some d => (d != "") && isFuture d
  | none => false

/-- The account views of the "parseable but invalid" failure response:
every input account whose id matches either parsed account id, with the
balance untouched, in input order. -/
def involvedViews (parsed : ParseResult) (accounts : List Account) : List AccountView :=
  accounts.filterMap fun account =>
    if parsed.debitAccount == some account.id ∨ parsed.creditAccount == some account.id then
      some ⟨account.id, account.balance, account.balance, toUpperStr account.currency⟩
    else none

/-- One account's view in the success/pending response: the debit account
is debited, the credit account credited (both untouched when pending),
anything else is skipped. -/
def settleView (da ca : Account) (amt : Int) (isPending : Bool)
    (account : Account) : Option AccountView :=
  if account.id == da.id then
    some ⟨account.id, if isPending then account.balance else account.balance - amt,
      account.balance, toUpperStr account.currency⟩
  else if account.id == ca.id then
    some ⟨account.id, if isPending then account.balance else account.balance + amt,
      account.balance, toUpperStr account.currency⟩
  else none

/-- The account views of the success/pending response: the two involved
accounts in input order, debited/credited unless pending. -/
def settleViews (da ca : Account) (amt : Int) (isPending : Bool)
    (accounts : List Account) : List AccountView :=
  accounts.filterMap (settleView da ca amt isPending)

/-- The generic fail-closed response the source's `catch` block builds for
any unexpected internal failure. -/
def genericMalformedResponse : Response :=
  ⟨none, none, none, none, none, none, "failed",
    PaymentMessages.MALFORMED_INSTRUCTION, STATUS_CODES.MALFORMED, []⟩

/-- The core of `parseInstruction(serviceData)`, the spec's
`processInstruction(accounts, instruction)`.  The schema validator and
logger are out-of-scope collaborators; the `catch`-path is reproduced at
the two places the `try` block could actually throw (a `null` primary
error, and `validation.debitAccount.id` on a missing record). -/
def parseInstruction (isFuture : String → Bool) (accounts : List Account)
    (instruction : String) : Response :=
  let tokens := tokenize instruction
  let parsed := parseWithStateMachine tokens
  let validation := validateBusinessRules parsed accounts
  if validation.errors.length > 0 then
    match selectPrimaryError validation.errors with
    | none =>
      -- `error.code` on `null` would throw; the catch block degrades
      -- this to the generic MALFORMED response
      genericMalformedResponse
    | some error =>
      if error.code = STATUS_CODES.MALFORMED ∨
          error.code = STATUS_CODES.MISSING_KEYWORD ∨
          error.code = STATUS_CODES.INVALID_ORDER then
        ⟨none, none, none, none, none, none, "failed",
          error.message, error.code, []⟩
      else
        ⟨parsed.type, parsed.amount, parsed.currency,
          parsed.debitAccount, parsed.creditAccount, parsed.executeBy,
          "failed", error.message, error.code,
          involvedViews parsed accounts⟩
  else
    match validation.debitAccount, validation.creditAccount with
    | some da, some ca =>
      let isPending := isPendingOf isFuture parsed.executeBy
      ⟨parsed.type, parsed.amount, parsed.currency,
        parsed.debitAccount, parsed.creditAccount, parsed.executeBy,
        (if isPending then "pending" else "successful"),
        (if isPending then PaymentMessages.TRANSACTION_PENDING
         else PaymentMessages.TRANSACTION_SUCCESSFUL),
        (if isPending then STATUS_CODES.PENDING else STATUS_CODES.SUCCESSFUL),
        -- `parsed.amount` is always set on this path (see
        -- `parse_ok_amount` below); JS would compute NaN otherwise
        settleViews da ca (parsed.amount.getD 0) isPending accounts⟩
    | _, _ =>
      -- `.id` on `undefined` would throw; the catch block degrades this
      -- to the generic MALFORMED response
      genericMalformedResponse

/-- The spec's name for the public operation. -/
def processInstruction (isFuture : String → Bool) (accounts : List Account)
    (instruction : String) : Response :=
  parseInstruction isFuture accounts instruction

/-! ## Small helper lemmas -/

/-- Counting matches in a conditional singleton segment. -/
theorem countP_if_singleton (p : Violation → Bool) (c : Prop) [Decidable c] (v : Violation) :
    (if c then [v] else []).countP p = if c ∧ p v = true then 1 else 0 := by
  by_cases h : c <;> by_cases hp : p v = true <;>
    simp [h, hp, List.countP_cons]

/-! ## Claim C6: invalid amount tokens are recorded as AM01 and parsing continues -/

/-- Claim C6: in the TYPE state (the amount slot), a token containing a
dot, failing integer parse, or parsing to a non-positive integer makes the
machine record an INVALID_AMOUNT (AM01) violation, leave `amount` (and
every other field) untouched, and continue to the AMOUNT state. -/
theorem claim_C6 (token : String) (r : ParseResult)
    (h : containsChar token '.' = true ∨ jsParseInt token = none ∨
      ∃ a, jsParseInt token = some a ∧ a ≤ 0) :
    stepSM States.TYPE token r =
      Step.cont States.AMOUNT
        { r with errors := r.errors ++
          [⟨STATUS_CODES.INVALID_AMOUNT, PaymentMessages.INVALID_AMOUNT⟩] } := by
  simp only [stepSM]
  rcases h with h | h | ⟨a, ha, hle⟩
  · simp [h]
  · by_cases hc : containsChar token '.'
    · simp [hc]
    · simp [hc, h]
  · by_cases hc : containsChar token '.'
    · simp [hc]
    · simp [hc, ha, hle]

/-- Witness for C6 at the decimal token "100.50". -/
theorem claim_C6_witness :
    (containsChar "100.50" '.' = true ∨ jsParseInt "100.50" = none ∨
      ∃ a, jsParseInt "100.50" = some a ∧ a ≤ 0) ∧
    stepSM States.TYPE "100.50" emptyParseResult =
      Step.cont States.AMOUNT
        { emptyParseResult with errors := emptyParseResult.errors ++
          [⟨STATUS_CODES.INVALID_AMOUNT, PaymentMessages.INVALID_AMOUNT⟩] } :=
  ⟨Or.inl (by decide), claim_C6 "100.50" emptyParseResult (Or.inl (by decide))⟩

/-! ## Claim C7: exhaustion before SECOND_ACCOUNT/DATE -/

/-- Counterexample to claim C7 as stated: on tokens ["DEBIT", "-5"] the
machine exhausts its tokens in the AMOUNT state (before SECOND_ACCOUNT or
DATE) having recorded only the non-fatal INVALID_AMOUNT violation, yet the
result contains no MALFORMED violation: the code suppresses the MALFORMED
push whenever ANY violation (fatal or not) was already recorded. -/
theorem claim_C7_counterexample :
    (parseWithStateMachine ["DEBIT", "-5"]).errors =
      [⟨STATUS_CODES.INVALID_AMOUNT, PaymentMessages.INVALID_AMOUNT⟩] ∧
    (⟨STATUS_CODES.MALFORMED, PaymentMessages.MALFORMED_INSTRUCTION⟩ : Violation) ∉
      (parseWithStateMachine ["DEBIT", "-5"]).errors := by
  constructor
  · decide
  · decide

/-- Claim C7 (amended): when the tokens are exhausted in a state other
than SECOND_ACCOUNT, DATE or COMPLETE and no violation of any kind has
been recorded, the machine produces exactly one MALFORMED violation. -/
theorem claim_C7 (state : States) (r : ParseResult)
    (h1 : state ≠ States.SECOND_ACCOUNT) (h2 : state ≠ States.DATE)
    (h3 : state ≠ States.COMPLETE) (h4 : r.errors = []) :
    (runSM [] state r).errors =
      [⟨STATUS_CODES.MALFORMED, PaymentMessages.MALFORMED_INSTRUCTION⟩] := by
  show (finishSM state r).errors = _
  have hs2 : (if state = States.SECOND_ACCOUNT ∨ state = States.DATE
      then States.COMPLETE else state) = state := by
    rw [if_neg]
    rintro (h | h)
    · exact h1 h
    · exact h2 h
  simp only [finishSM, hs2]
  rw [if_pos ⟨h3, h4⟩]
  simp [h4]

/-- Witness for the amended C7 at the START state with an empty result. -/
theorem claim_C7_witness :
    States.START ≠ States.SECOND_ACCOUNT ∧ emptyParseResult.errors = [] ∧
    (runSM [] States.START emptyParseResult).errors =
      [⟨STATUS_CODES.MALFORMED, PaymentMessages.MALFORMED_INSTRUCTION⟩] :=
  ⟨by decide, rfl,
    claim_C7 States.START emptyParseResult (by decide) (by decide) (by decide) rfl⟩

/-! ## Claim C8: the SAME_ACCOUNT rule fires exactly on equal (possibly null) ids -/

set_option maxHeartbeats 2000000 in
/-- Claim C8: `validateBusinessRules` emits exactly one SAME_ACCOUNT (AC02)
violation beyond those already present in the parse result precisely when
the parsed debit id equals the parsed credit id — including the null/null
case, since `none = none` holds. -/
theorem claim_C8 (parsed : ParseResult) (accounts : List Account) :
    (validateBusinessRules parsed accounts).errors.countP (fun e => e.code == "AC02") =
      parsed.errors.countP (fun e => e.code == "AC02") +
      (if parsed.debitAccount = parsed.creditAccount then 1 else 0) := by
  obtain ⟨ty, am, cur, dacc, cacc, exb, errs⟩ := parsed
  simp only [validateBusinessRules, List.countP_append]
  rcases dacc with _ | d <;> rcases cacc with _ | c
  · rcases cur with _ | cu <;> rcases am with _ | amt <;>
      (simp only [Option.bind]
       split_ifs <;>
         simp [List.countP_cons, List.countP_nil, List.countP_append,
           STATUS_CODES.SAME_ACCOUNT, STATUS_CODES.INVALID_ACCOUNT_ID,
           STATUS_CODES.UNSUPPORTED_CURRENCY, STATUS_CODES.ACCOUNT_NOT_FOUND,
           STATUS_CODES.CURRENCY_MISMATCH, STATUS_CODES.INSUFFICIENT_FUNDS])
  · rcases hfc : List.find? (fun a => a.id == c) accounts with _ | ca <;>
      rcases cur with _ | cu <;> rcases am with _ | amt <;>
      (simp only [Option.bind, hfc]
       split_ifs <;>
         simp [List.countP_cons, List.countP_nil, List.countP_append,
           STATUS_CODES.SAME_ACCOUNT, STATUS_CODES.INVALID_ACCOUNT_ID,
           STATUS_CODES.UNSUPPORTED_CURRENCY, STATUS_CODES.ACCOUNT_NOT_FOUND,
           STATUS_CODES.CURRENCY_MISMATCH, STATUS_CODES.INSUFFICIENT_FUNDS])
  · rcases hfd : List.find? (fun a => a.id == d) accounts with _ | da <;>
      rcases cur with _ | cu <;> rcases am with _ | amt <;>
      (simp only [Option.bind, hfd]
       split_ifs <;>
         simp [List.countP_cons, List.countP_nil, List.countP_append,
           STATUS_CODES.SAME_ACCOUNT, STATUS_CODES.INVALID_ACCOUNT_ID,
           STATUS_CODES.UNSUPPORTED_CURRENCY, STATUS_CODES.ACCOUNT_NOT_FOUND,
           STATUS_CODES.CURRENCY_MISMATCH, STATUS_CODES.INSUFFICIENT_FUNDS])
  · rcases hfd : List.find? (fun a => a.id == d) accounts with _ | da <;>
      rcases hfc : List.find? (fun a => a.id == c) accounts with _ | ca <;>
      rcases cur with _ | cu <;> rcases am with _ | amt <;>
      (simp only [Option.bind, hfd, hfc]
       split_ifs <;>
         simp [List.countP_cons, List.countP_nil, List.countP_append,
           STATUS_CODES.SAME_ACCOUNT, STATUS_CODES.INVALID_ACCOUNT_ID,
           STATUS_CODES.UNSUPPORTED_CURRENCY, STATUS_CODES.ACCOUNT_NOT_FOUND,
           STATUS_CODES.CURRENCY_MISMATCH, STATUS_CODES.INSUFFICIENT_FUNDS])

/-! ## Claim C3: the error prioritizer -/

/-- If nothing in the list beats the accumulator's priority, the fold in
`selectPrimaryError` leaves the accumulator unchanged. -/
theorem sel_fold_high (errors : List Violation) :
    ∀ acc : Option Violation × Nat, (∀ v ∈ errors, acc.2 ≤ priorityOf v.code) →
      errors.foldl selStep acc = acc := by
  induction errors with
  | nil => intro acc _; rfl
  | cons v rest ih =>
    intro acc h
    rw [List.foldl_cons]
    have h1 : ¬ priorityOf v.code < acc.2 :=
      not_lt.mpr (h v (List.mem_cons_self _ _))
    have hstep : selStep acc v = acc := by
      rw [selStep, if_neg h1]
    rw [hstep]
    exact ih acc fun w hw => h w (List.mem_cons_of_mem _ hw)

/-- If the list decomposes around a violation `e` that beats the
accumulator, beats everything before it strictly, and is beaten by nothing
after it, the fold settles on `e`. -/
theorem sel_fold_found (e : Violation) (l1 : List Violation) :
    ∀ (l2 : List Violation) (acc : Option Violation × Nat),
      priorityOf e.code < acc.2 →
      (∀ v ∈ l1, priorityOf e.code < priorityOf v.code) →
      (∀ v ∈ l2, priorityOf e.code ≤ priorityOf v.code) →
      (l1 ++ e :: l2).foldl selStep acc = (some e, priorityOf e.code) := by
  induction l1 with
  | nil =>
    intro l2 acc hlt _ hl2
    rw [List.nil_append, List.foldl_cons]
    have hstep : selStep acc e = (some e, priorityOf e.code) := by
      rw [selStep, if_pos hlt]
    rw [hstep]
    exact sel_fold_high l2 _ fun v hv => hl2 v hv
  | cons w l1t ih =>
    intro l2 acc hlt hl1 hl2
    rw [List.cons_append, List.foldl_cons]
    have hwgt : priorityOf e.code < priorityOf w.code :=
      hl1 w (List.mem_cons_self _ _)
    by_cases hw : priorityOf w.code < acc.2
    · have hstep : selStep acc w = (some w, priorityOf w.code) := by
        rw [selStep, if_pos hw]
      rw [hstep]
      exact ih l2 _ hwgt (fun v hv => hl1 v (List.mem_cons_of_mem _ hv)) hl2
    · have hstep : selStep acc w = acc := by
        rw [selStep, if_neg hw]
      rw [hstep]
      exact ih l2 acc hlt (fun v hv => hl1 v (List.mem_cons_of_mem _ hv)) hl2

/-- Every non-empty violation list has a first element of minimal
priority. -/
theorem exists_first_min (errors : List Violation) (h : errors ≠ []) :
    ∃ e l1 l2, errors = l1 ++ e :: l2 ∧
      (∀ v ∈ errors, priorityOf e.code ≤ priorityOf v.code) ∧
      (∀ v ∈ l1, priorityOf e.code < priorityOf v.code) := by
  induction errors with
  | nil => exact absurd rfl h
  | cons v rest ih =>
    rcases Decidable.em (rest = []) with hr | hr
    · subst hr
      refine ⟨v, [], [], rfl, ?_, ?_⟩
      · intro w hw
        rcases List.mem_singleton.mp hw with rfl
        exact le_refl _
      · intro w hw
        exact absurd hw (List.not_mem_nil _)
    · obtain ⟨e, l1, l2, heq, hmin, hfirst⟩ := ih hr
      by_cases hle : priorityOf v.code ≤ priorityOf e.code
      · refine ⟨v, [], rest, rfl, ?_, ?_⟩
        · intro w hw
          rcases List.mem_cons.mp hw with rfl | hw2
          · exact le_refl _
          · exact le_trans hle (hmin w hw2)
        · intro w hw
          exact absurd hw (List.not_mem_nil _)
      · refine ⟨e, v :: l1, l2, by rw [heq, List.cons_append], ?_, ?_⟩
        · intro w hw
          rcases List.mem_cons.mp hw with rfl | hw2
          · exact le_of_lt (lt_of_not_le hle)
          · exact hmin w hw2
        · intro w hw
          rcases List.mem_cons.mp hw with rfl | hw2
          · exact lt_of_not_le hle
          · exact hfirst w hw2

/-- Counterexample to claim C3 as stated: on the non-empty violation list
whose only element carries the unmapped code "ZZ99", `selectPrimaryError`
returns `null` instead of that (lowest-ranked) violation, because the scan
only replaces the accumulator on a priority strictly below the initial 999
and an unmapped code is mapped to exactly 999. -/
theorem claim_C3_counterexample :
    selectPrimaryError [⟨"ZZ99", "boom"⟩] = none ∧
    selectPrimaryError [⟨"ZZ99", "boom"⟩] ≠ some ⟨"ZZ99", "boom"⟩ := by
  constructor
  · decide
  · decide

/-- Claim C3 (amended): whenever the violation list contains at least one
violation whose code is mapped by the priority table (priority below the
999 assigned to unmapped codes), `selectPrimaryError` returns the first
violation of lowest priority: it is an element of the list, no violation
has a strictly lower priority, and everything before it in the list has a
strictly higher priority.  (On a non-empty list of only unmapped codes it
returns `null` — see the counterexample.) -/
theorem claim_C3 (errors : List Violation)
    (h : ∃ v ∈ errors, priorityOf v.code < 999) :
    ∃ e l1 l2, selectPrimaryError errors = some e ∧ errors = l1 ++ e :: l2 ∧
      (∀ v ∈ errors, priorityOf e.code ≤ priorityOf v.code) ∧
      (∀ v ∈ l1, priorityOf e.code < priorityOf v.code) := by
  obtain ⟨w, hw, hwlt⟩ := h
  have hne : errors ≠ [] := by
    rintro rfl
    exact absurd hw (List.not_mem_nil _)
  obtain ⟨e, l1, l2, heq, hmin, hfirst⟩ := exists_first_min errors hne
  refine ⟨e, l1, l2, ?_, heq, hmin, hfirst⟩
  have helt : priorityOf e.code < 999 := lt_of_le_of_lt (hmin w hw) hwlt
  have hl2 : ∀ v ∈ l2, priorityOf e.code ≤ priorityOf v.code := by
    intro v hv
    refine hmin v ?_
    rw [heq]
    exact List.mem_append_right l1 (List.mem_cons_of_mem e hv)
  unfold selectPrimaryError
  rw [heq, sel_fold_found e l1 l2 (none, 999) helt hfirst hl2]

/-- Witness for the amended C3: a list holding a MALFORMED violation and
an UNSUPPORTED_CURRENCY violation (the spec's "simultaneously malformed
and unsupported currency" scenario); the selected violation is the
malformed one. -/
theorem claim_C3_witness :
    (∃ v ∈ [(⟨STATUS_CODES.MALFORMED, PaymentMessages.MALFORMED_INSTRUCTION⟩ : Violation),
        ⟨STATUS_CODES.UNSUPPORTED_CURRENCY, PaymentMessages.UNSUPPORTED_CURRENCY⟩],
      priorityOf v.code < 999) ∧
    (∃ e l1 l2,
      selectPrimaryError [(⟨STATUS_CODES.MALFORMED, PaymentMessages.MALFORMED_INSTRUCTION⟩ : Violation),
        ⟨STATUS_CODES.UNSUPPORTED_CURRENCY, PaymentMessages.UNSUPPORTED_CURRENCY⟩] = some e ∧
      [(⟨STATUS_CODES.MALFORMED, PaymentMessages.MALFORMED_INSTRUCTION⟩ : Violation),
        ⟨STATUS_CODES.UNSUPPORTED_CURRENCY, PaymentMessages.UNSUPPORTED_CURRENCY⟩] = l1 ++ e :: l2 ∧
      (∀ v ∈ [(⟨STATUS_CODES.MALFORMED, PaymentMessages.MALFORMED_INSTRUCTION⟩ : Violation),
          ⟨STATUS_CODES.UNSUPPORTED_CURRENCY, PaymentMessages.UNSUPPORTED_CURRENCY⟩],
        priorityOf e.code ≤ priorityOf v.code) ∧
      (∀ v ∈ l1, priorityOf e.code < priorityOf v.code)) :=
  ⟨⟨⟨STATUS_CODES.MALFORMED, PaymentMessages.MALFORMED_INSTRUCTION⟩,
      List.mem_cons_self _ _, by decide⟩,
    claim_C3 _ ⟨⟨STATUS_CODES.MALFORMED, PaymentMessages.MALFORMED_INSTRUCTION⟩,
      List.mem_cons_self _ _, by decide⟩⟩

/-! ## Tokenizer lemmas -/

/-- A token built from a non-empty character run is a non-empty string. -/
theorem mk_ne_empty_of_ne_nil (l : List Char) (h : l ≠ []) : String.mk l ≠ "" := by
  intro he
  exact h (by simpa using congrArg String.data he)

/-- Every token produced by `wordsAux` is non-empty. -/
theorem wordsAux_ne_empty (cs : List Char) :
    ∀ (cur : List Char) (t : String), t ∈ wordsAux cs cur → t ≠ "" := by
  induction cs with
  | nil =>
    intro cur t ht
    by_cases hcur : cur = []
    · rw [wordsAux, if_pos hcur] at ht
      exact absurd ht (List.not_mem_nil _)
    · rw [wordsAux, if_neg hcur] at ht
      rcases List.mem_singleton.mp ht with rfl
      exact mk_ne_empty_of_ne_nil _ fun hrev => hcur (List.reverse_eq_nil_iff.mp hrev)
  | cons c rest ih =>
    intro cur t ht
    by_cases hw : c.isWhitespace
    · by_cases hcur : cur = []
      · rw [wordsAux, if_pos hw, if_pos hcur] at ht
        exact ih [] t ht
      · rw [wordsAux, if_pos hw, if_neg hcur] at ht
        rcases List.mem_cons.mp ht with rfl | ht2
        · exact mk_ne_empty_of_ne_nil _ fun hrev => hcur (List.reverse_eq_nil_iff.mp hrev)
        · exact ih [] t ht2
    · rw [wordsAux, if_neg hw] at ht
      exact ih (c :: cur) t ht

/-- Every token produced by `tokenize` is non-empty. -/
theorem tokenize_ne_empty (s : String) : ∀ t ∈ tokenize s, t ≠ "" :=
  fun t ht => wordsAux_ne_empty s.toList [] t ht

/-- `wordsAux` yields nothing on all-whitespace input. -/
theorem wordsAux_all_ws (cs : List Char) (h : ∀ c ∈ cs, c.isWhitespace = true) :
    wordsAux cs [] = [] := by
  induction cs with
  | nil => rfl
  | cons c rest ih =>
    have hc := h c (List.mem_cons_self _ _)
    have ih2 := ih fun d hd => h d (List.mem_cons_of_mem _ hd)
    simp [wordsAux, hc, ih2]

/-- `tokenize` yields no tokens on an empty or all-whitespace instruction. -/
theorem tokenize_all_ws (s : String) (h : ∀ c ∈ s.toList, c.isWhitespace = true) :
    tokenize s = [] :=
  wordsAux_all_ws s.toList h

/-! ## Claim C9: empty / whitespace-only instruction -/

/-- Claim C9: on an instruction that is empty or consists only of
whitespace the tokenizer yields no tokens and `processInstruction`
returns a failed SY03 (MALFORMED) response with every parsed field null
and an empty accounts list, regardless of the supplied accounts. -/
theorem claim_C9 (isFuture : String → Bool) (accounts : List Account) (s : String)
    (h : ∀ c ∈ s.toList, c.isWhitespace = true) :
    tokenize s = [] ∧
    processInstruction isFuture accounts s =
      ⟨none, none, none, none, none, none, "failed",
        PaymentMessages.MALFORMED_INSTRUCTION, STATUS_CODES.MALFORMED, []⟩ := by
  have ht : tokenize s = [] := tokenize_all_ws s h
  refine ⟨ht, ?_⟩
  show parseInstruction isFuture accounts s = _
  unfold parseInstruction
  rw [ht]
  rfl

/-- Witness for C9 at the three-space instruction with one account. -/
theorem claim_C9_witness :
    (∀ c ∈ ("   " : String).toList, c.isWhitespace = true) ∧
    tokenize "   " = [] ∧
    processInstruction (fun _ => false) [⟨"a", 500, "USD"⟩] "   " =
      ⟨none, none, none, none, none, none, "failed",
        PaymentMessages.MALFORMED_INSTRUCTION, STATUS_CODES.MALFORMED, []⟩ :=
  ⟨by decide, claim_C9 (fun _ => false) [⟨"a", 500, "USD"⟩] "   " (by decide)⟩

/-! ## Claim C4: failure response shapes per primary-error class -/

/-- `selectPrimaryError` only returns a violation on a non-empty list. -/
theorem sel_some_ne_nil (errors : List Violation) (err : Violation)
    (h : selectPrimaryError errors = some err) : errors ≠ [] := by
  intro h0
  rw [h0] at h
  exact Option.noConfusion h

/-- Claim C4: when the selected primary error is one of the unparseable
codes SY03/SY01/SY02 the response nulls all parsed fields and carries an
empty accounts list; for any other primary error the response echoes the
parsed type, amount, currency, account ids and date, and every account
view carries the unmodified input balance in both `balance` and
`balance_before`. -/
theorem claim_C4 (isFuture : String → Bool) (accounts : List Account)
    (instruction : String) (err : Violation)
    (hsel : selectPrimaryError
      (validateBusinessRules (parseWithStateMachine (tokenize instruction))
        accounts).errors = some err) :
    ((err.code = "SY03" ∨ err.code = "SY01" ∨ err.code = "SY02") →
      processInstruction isFuture accounts instruction =
        ⟨none, none, none, none, none, none, "failed", err.message, err.code, []⟩) ∧
    (¬ (err.code = "SY03" ∨ err.code = "SY01" ∨ err.code = "SY02") →
      (processInstruction isFuture accounts instruction).type =
        (parseWithStateMachine (tokenize instruction)).type ∧
      (processInstruction isFuture accounts instruction).amount =
        (parseWithStateMachine (tokenize instruction)).amount ∧
      (processInstruction isFuture accounts instruction).currency =
        (parseWithStateMachine (tokenize instruction)).currency ∧
      (processInstruction isFuture accounts instruction).debit_account =
        (parseWithStateMachine (tokenize instruction)).debitAccount ∧
      (processInstruction isFuture accounts instruction).credit_account =
        (parseWithStateMachine (tokenize instruction)).creditAccount ∧
      (processInstruction isFuture accounts instruction).execute_by =
        (parseWithStateMachine (tokenize instruction)).executeBy ∧
      (processInstruction isFuture accounts instruction).status = "failed" ∧
      (processInstruction isFuture accounts instruction).status_code = err.code ∧
      (processInstruction isFuture accounts instruction).accounts =
        involvedViews (parseWithStateMachine (tokenize instruction)) accounts ∧
      ∀ view ∈ (processInstruction isFuture accounts instruction).accounts,
        ∃ acct ∈ accounts, view.id = acct.id ∧ view.balance = acct.balance ∧
          view.balance_before = acct.balance) := by
  have hne := sel_some_ne_nil _ _ hsel
  have hlen : 0 < (validateBusinessRules (parseWithStateMachine (tokenize instruction))
      accounts).errors.length := List.length_pos.mpr hne
  unfold processInstruction parseInstruction
  rw [if_pos hlen, hsel]
  constructor
  · intro hcode
    have hcode2 : err.code = STATUS_CODES.MALFORMED ∨
        err.code = STATUS_CODES.MISSING_KEYWORD ∨
        err.code = STATUS_CODES.INVALID_ORDER := hcode
    dsimp only
    rw [if_pos hcode2]
  · intro hcode
    have hcode2 : ¬ (err.code = STATUS_CODES.MALFORMED ∨
        err.code = STATUS_CODES.MISSING_KEYWORD ∨
        err.code = STATUS_CODES.INVALID_ORDER) := hcode
    dsimp only
    rw [if_neg hcode2]
    refine ⟨rfl, rfl, rfl, rfl, rfl, rfl, rfl, rfl, rfl, ?_⟩
    intro view hview
    obtain ⟨acct, hacct, hf⟩ := List.mem_filterMap.mp hview
    by_cases hcond : (parseWithStateMachine (tokenize instruction)).debitAccount ==
        some acct.id ∨ (parseWithStateMachine (tokenize instruction)).creditAccount ==
        some acct.id
    · rw [if_pos hcond] at hf
      obtain rfl := Option.some.inj hf
      exact ⟨acct, hacct, rfl, rfl, rfl⟩
    · rw [if_neg hcond] at hf
      exact absurd hf (by simp)

/-- Witness for C4: the unparseable instruction "SEND 100" yields primary
error SY01 and the all-null empty-accounts response. -/
theorem claim_C4_witness :
    (selectPrimaryError
      (validateBusinessRules (parseWithStateMachine (tokenize "SEND 100")) []).errors =
      some ⟨STATUS_CODES.MISSING_KEYWORD, PaymentMessages.MISSING_KEYWORD⟩) ∧
    processInstruction (fun _ => false) [] "SEND 100" =
      ⟨none, none, none, none, none, none, "failed",
        PaymentMessages.MISSING_KEYWORD, STATUS_CODES.MISSING_KEYWORD, []⟩ :=
  ⟨by decide,
    (claim_C4 (fun _ => false) [] "SEND 100"
      ⟨STATUS_CODES.MISSING_KEYWORD, PaymentMessages.MISSING_KEYWORD⟩ (by decide)).1
      (by decide)⟩

/-! ## Claim C10: case sensitivity of the two currency-mismatch checks -/

/-- Claim C10: when both accounts resolve and their stored currency
strings differ only in letter case, the account-versus-account check
(plain string inequality) emits its CURRENCY_MISMATCH violation, while
the instruction-versus-debit-account check (which uppercases the account
currency first) adds nothing: the count of CU01 violations other than the
account-versus-account one is unchanged from the parse result. -/
theorem claim_C10 (parsed : ParseResult) (accounts : List Account)
    (da ca : Account) (c : String)
    (hda : (validateBusinessRules parsed accounts).debitAccount = some da)
    (hca : (validateBusinessRules parsed accounts).creditAccount = some ca)
    (hcur : parsed.currency = some c)
    (hup : toUpperStr da.currency = c)
    (hneq : da.currency ≠ ca.currency)
    (hcase : toUpperStr da.currency = toUpperStr ca.currency) :
    (⟨STATUS_CODES.CURRENCY_MISMATCH, PaymentMessages.CURRENCY_MISMATCH⟩ : Violation) ∈
      (validateBusinessRules parsed accounts).errors ∧
    (validateBusinessRules parsed accounts).errors.countP
        (fun e => e.code == "CU01" && e.message != PaymentMessages.CURRENCY_MISMATCH) =
      parsed.errors.countP
        (fun e => e.code == "CU01" && e.message != PaymentMessages.CURRENCY_MISMATCH) := by
  have hd2 : parsed.debitAccount.bind
      (fun d => accounts.find? fun a => a.id == d) = some da := hda
  have hc2 : parsed.creditAccount.bind
      (fun c2 => accounts.find? fun a => a.id == c2) = some ca := hca
  obtain ⟨pd, hpd⟩ : ∃ pd, parsed.debitAccount = some pd := by
    rcases h0 : parsed.debitAccount with _ | pd
    · rw [h0] at hd2
      exact absurd hd2 (by simp)
    · exact ⟨pd, rfl⟩
  obtain ⟨pc, hpc⟩ : ∃ pc, parsed.creditAccount = some pc := by
    rcases h0 : parsed.creditAccount with _ | pc
    · rw [h0] at hc2
      exact absurd hc2 (by simp)
    · exact ⟨pc, rfl⟩
  rw [hpd] at hd2
  rw [hpc] at hc2
  simp only [Option.some_bind] at hd2 hc2
  have hinstr : ¬ (c ≠ "" ∧ toUpperStr da.currency ≠ c) := by
    rintro ⟨h1, h2⟩
    exact h2 hup
  constructor
  · unfold validateBusinessRules
    simp only [hpd, hpc, hcur, Option.some_bind, hd2, hc2]
    refine List.mem_append_right _ ?_
    refine List.mem_append_left _ ?_
    refine List.mem_append_left _ ?_
    rw [if_pos hneq]
    exact List.mem_singleton.mpr rfl
  · unfold validateBusinessRules
    simp only [hpd, hpc, hcur, Option.some_bind, hd2, hc2, List.countP_append]
    rw [if_neg hinstr, if_pos hneq]
    have e1 : ∀ m : String,
        ((fun e => e.code == "CU01" && e.message != PaymentMessages.CURRENCY_MISMATCH)
          (⟨STATUS_CODES.INVALID_ACCOUNT_ID, m⟩ : Violation)) = false := by
      intro m
      simp [STATUS_CODES.INVALID_ACCOUNT_ID]
    have e2 : ∀ m : String,
        ((fun e => e.code == "CU01" && e.message != PaymentMessages.CURRENCY_MISMATCH)
          (⟨STATUS_CODES.ACCOUNT_NOT_FOUND, m⟩ : Violation)) = false := by
      intro m
      simp [STATUS_CODES.ACCOUNT_NOT_FOUND]
    have e3 : ((fun e => e.code == "CU01" && e.message != PaymentMessages.CURRENCY_MISMATCH)
          (⟨STATUS_CODES.CURRENCY_MISMATCH, PaymentMessages.CURRENCY_MISMATCH⟩ : Violation)) =
        false := by
      simp
    have e4 : ∀ m : String,
        ((fun e => e.code == "CU01" && e.message != PaymentMessages.CURRENCY_MISMATCH)
          (⟨STATUS_CODES.INSUFFICIENT_FUNDS, m⟩ : Violation)) = false := by
      intro m
      simp [STATUS_CODES.INSUFFICIENT_FUNDS]
    have e5 : ∀ m : String,
        ((fun e => e.code == "CU01" && e.message != PaymentMessages.CURRENCY_MISMATCH)
          (⟨STATUS_CODES.SAME_ACCOUNT, m⟩ : Violation)) = false := by
      intro m
      simp [STATUS_CODES.SAME_ACCOUNT]
    have e6 : ∀ m : String,
        ((fun e => e.code == "CU01" && e.message != PaymentMessages.CURRENCY_MISMATCH)
          (⟨STATUS_CODES.UNSUPPORTED_CURRENCY, m⟩ : Violation)) = false := by
      intro m
      simp [STATUS_CODES.UNSUPPORTED_CURRENCY]
    rcases ham : parsed.amount with _ | amt <;>
      simp only [ham] <;>
      split_ifs <;>
      simp [List.countP_cons, List.countP_nil, List.countP_append, e1, e2, e3, e4, e5, e6]

/-- Witness for C10: accounts holding "usd" and "USD"; the
account-versus-account mismatch fires while the instruction-versus-debit
check stays silent. -/
theorem claim_C10_witness :
    ((validateBusinessRules ⟨some "DEBIT", some 10, some "USD", some "a", some "b", none, []⟩
        [⟨"a", 100, "usd"⟩, ⟨"b", 100, "USD"⟩]).debitAccount = some ⟨"a", 100, "usd"⟩) ∧
    ((⟨STATUS_CODES.CURRENCY_MISMATCH, PaymentMessages.CURRENCY_MISMATCH⟩ : Violation) ∈
      (validateBusinessRules ⟨some "DEBIT", some 10, some "USD", some "a", some "b", none, []⟩
        [⟨"a", 100, "usd"⟩, ⟨"b", 100, "USD"⟩]).errors ∧
    (validateBusinessRules ⟨some "DEBIT", some 10, some "USD", some "a", some "b", none, []⟩
        [⟨"a", 100, "usd"⟩, ⟨"b", 100, "USD"⟩]).errors.countP
        (fun e => e.code == "CU01" && e.message != PaymentMessages.CURRENCY_MISMATCH) =
      ([] : List Violation).countP
        (fun e => e.code == "CU01" && e.message != PaymentMessages.CURRENCY_MISMATCH)) :=
  ⟨by decide,
    claim_C10 ⟨some "DEBIT", some 10, some "USD", some "a", some "b", none, []⟩
      [⟨"a", 100, "usd"⟩, ⟨"b", 100, "USD"⟩] ⟨"a", 100, "usd"⟩ ⟨"b", 100, "USD"⟩ "USD"
      (by decide) (by decide) rfl (by decide) (by decide) (by decide)⟩

/-! ## State-machine invariant: error-free runs populate all parsed fields -/

/-- Position of each state along the grammar walk. -/
def stageIdx : States → Nat
  | .START => 0
  | .TYPE => 1
  | .AMOUNT => 2
  | .CURRENCY => 3
  | .FIRST_KEYWORD => 4
  | .FIRST_ACCOUNT_KEYWORD => 5
  | .FIRST_ACCOUNT => 6
  | .FOR => 7
  | .SECOND_TYPE => 8
  | .SECOND_KEYWORD => 9
  | .SECOND_ACCOUNT_KEYWORD => 10
  | .SECOND_ACCOUNT => 11
  | .ON => 12
  | .DATE => 13
  | .COMPLETE => 14

/-- Loop invariant of `runSM`: by each stage the corresponding fields of
the result must be filled (or an error recorded), and `executeBy` only
ever holds a format-valid date. -/
def PreSM (state : States) (r : ParseResult) : Prop :=
  (1 ≤ stageIdx state → r.type = some "DEBIT" ∨ r.type = some "CREDIT") ∧
  (2 ≤ stageIdx state → (∃ a, r.amount = some a ∧ 0 < a) ∨ r.errors ≠ []) ∧
  (6 ≤ stageIdx state →
    (r.type = some "DEBIT" → ∃ d, r.debitAccount = some d ∧ d ≠ "") ∧
    (r.type = some "CREDIT" → ∃ c, r.creditAccount = some c ∧ c ≠ "")) ∧
  (11 ≤ stageIdx state →
    (∃ d, r.debitAccount = some d ∧ d ≠ "") ∧
    (∃ c, r.creditAccount = some c ∧ c ≠ "")) ∧
  (r.executeBy = none ∨ ∃ s2, r.executeBy = some s2 ∧ isValidDateFormat s2 = true)

/-- What an error-free run guarantees about the final parse result. -/
def goodFinal (r : ParseResult) : Prop :=
  (∃ a, r.amount = some a ∧ 0 < a) ∧
  (∃ d, r.debitAccount = some d ∧ d ≠ "") ∧
  (∃ c, r.creditAccount = some c ∧ c ≠ "") ∧
  (r.executeBy = none ∨ ∃ s2, r.executeBy = some s2 ∧ isValidDateFormat s2 = true)

/-- `PreSM` transports along a transition that leaves the result intact,
provided the new state crosses no threshold the old one had not. -/
theorem PreSM_step_same (s1 s2 : States) (r : ParseResult) (h : PreSM s1 r)
    (ht1 : 1 ≤ stageIdx s2 → 1 ≤ stageIdx s1)
    (ht2 : 2 ≤ stageIdx s2 → 2 ≤ stageIdx s1)
    (ht6 : 6 ≤ stageIdx s2 → 6 ≤ stageIdx s1)
    (ht11 : 11 ≤ stageIdx s2 → 11 ≤ stageIdx s1) : PreSM s2 r := by
  obtain ⟨a, b, c, d, e⟩ := h
  exact ⟨fun h2 => a (ht1 h2), fun h2 => b (ht2 h2),
    fun h2 => c (ht6 h2), fun h2 => d (ht11 h2), e⟩

/-- If the epilogue leaves no errors, none were recorded and the machine
stopped in SECOND_ACCOUNT, DATE or COMPLETE. -/
theorem finishSM_errors_nil (state : States) (r : ParseResult)
    (h : (finishSM state r).errors = []) :
    r.errors = [] ∧
    (state = States.SECOND_ACCOUNT ∨ state = States.DATE ∨ state = States.COMPLETE) := by
  unfold finishSM at h
  by_cases hs : state = States.SECOND_ACCOUNT ∨ state = States.DATE
  · rw [if_pos hs] at h
    have h2 : ¬ ((States.COMPLETE ≠ States.COMPLETE) ∧ r.errors = []) := by
      rintro ⟨hbad, _⟩
      exact hbad rfl
    rw [if_neg h2] at h
    rcases hs with hs | hs
    · exact ⟨h, Or.inl hs⟩
    · exact ⟨h, Or.inr (Or.inl hs)⟩
  · rw [if_neg hs] at h
    by_cases hc : state = States.COMPLETE
    · have h2 : ¬ ((state ≠ States.COMPLETE) ∧ r.errors = []) := by
        rintro ⟨hbad, _⟩
        exact hbad hc
      rw [if_neg h2] at h
      exact ⟨h, Or.inr (Or.inr hc)⟩
    · by_cases he : r.errors = []
      · rw [if_pos ⟨hc, he⟩] at h
        simp [he] at h
      · have h2 : ¬ ((state ≠ States.COMPLETE) ∧ r.errors = []) := by
          rintro ⟨_, hbad⟩
          exact he hbad
        rw [if_neg h2] at h
        exact absurd h he

/-- The epilogue is the identity on completed runs. -/
theorem finishSM_of_good (state : States) (r : ParseResult)
    (h : state = States.SECOND_ACCOUNT ∨ state = States.DATE ∨
      state = States.COMPLETE) :
    finishSM state r = r := by
  unfold finishSM
  rcases h with h | h | h <;> subst h <;> simp

/-- Main invariant: an error-free run from any stage whose invariant
holds ends with amount, both account ids and a well-formed optional date
all populated. -/
theorem runSM_good (tokens : List String) :
    ∀ (state : States) (r : ParseResult),
      (∀ t ∈ tokens, t ≠ "") → PreSM state r →
      (runSM tokens state r).errors = [] →
      goodFinal (runSM tokens state r) := by
  induction tokens with
  | nil =>
    intro state r _ hpre herr
    have hfin : runSM [] state r = finishSM state r := rfl
    rw [hfin] at herr ⊢
    obtain ⟨hr0, hst⟩ := finishSM_errors_nil state r herr
    rw [finishSM_of_good state r hst]
    obtain ⟨h1, h2, h3, h4, h5⟩ := hpre
    have hstage : 11 ≤ stageIdx state := by
      rcases hst with h | h | h <;> subst h <;> decide
    obtain ⟨hd, hc⟩ := h4 hstage
    rcases h2 (by omega) with ⟨a, haa, hapos⟩ | hne2
    · exact ⟨⟨a, haa, hapos⟩, hd, hc, h5⟩
    · exact absurd hr0 hne2
  | cons token rest ih =>
    intro state r hne hpre herr
    have htok : token ≠ "" := hne token (List.mem_cons_self _ _)
    have hrest : ∀ t ∈ rest, t ≠ "" := fun t ht => hne t (List.mem_cons_of_mem _ ht)
    by_cases hcomp : state = States.COMPLETE
    · subst hcomp
      have heq : runSM (token :: rest) States.COMPLETE r = r := by
        rw [runSM, if_pos rfl]
        exact finishSM_of_good _ _ (Or.inr (Or.inr rfl))
      rw [heq] at herr ⊢
      obtain ⟨h1, h2, h3, h4, h5⟩ := hpre
      obtain ⟨hd, hc⟩ := h4 (by decide)
      rcases h2 (by decide) with ⟨a, haa, hapos⟩ | hne2
      · exact ⟨⟨a, haa, hapos⟩, hd, hc, h5⟩
      · exact absurd herr hne2
    · have heq : runSM (token :: rest) state r =
          (match stepSM state token r with
            | .cont s2 r2 => runSM rest s2 r2
            | .halt r2 => r2) := by
        rw [runSM, if_neg hcomp]
      rw [heq] at herr ⊢
      clear heq
      obtain ⟨h1, h2, h3, h4, h5⟩ := hpre
      cases state with
      | START =>
        by_cases hk : toUpperStr token = "DEBIT" ∨ toUpperStr token = "CREDIT"
        · rw [show stepSM States.START token r =
              Step.cont States.TYPE { r with type := some (toUpperStr token) } from by
                simp only [stepSM]
                rw [if_pos hk]] at herr ⊢
          refine ih _ _ hrest ⟨?_, ?_, ?_, ?_, ?_⟩ herr
          · intro _
            rcases hk with hk | hk <;> simp [hk]
          · intro hx
            exact absurd hx (by decide)
          · intro hx
            exact absurd hx (by decide)
          · intro hx
            exact absurd hx (by decide)
          · exact h5
        · rw [show stepSM States.START token r =
              Step.halt { r with errors := r.errors ++
                [⟨STATUS_CODES.MISSING_KEYWORD, PaymentMessages.MISSING_KEYWORD⟩] } from by
                simp only [stepSM]
                rw [if_neg hk]] at herr ⊢
          simp at herr
      | TYPE =>
        have preAM : ∀ r2 : ParseResult,
            r2.type = r.type → ((∃ a, r2.amount = some a ∧ 0 < a) ∨ r2.errors ≠ []) →
            r2.executeBy = r.executeBy → PreSM States.AMOUNT r2 := by
          intro r2 hty hgood hex
          refine ⟨?_, ?_, ?_, ?_, ?_⟩
          · intro _
            rw [hty]
            exact h1 (by decide)
          · intro _
            exact hgood
          · intro hx
            exact absurd hx (by decide)
          · intro hx
            exact absurd hx (by decide)
          · rw [hex]
            exact h5
        by_cases hdot : containsChar token '.'
        · rw [show stepSM States.TYPE token r = Step.cont States.AMOUNT { r with
              errors := r.errors ++
                [⟨STATUS_CODES.INVALID_AMOUNT, PaymentMessages.INVALID_AMOUNT⟩] } from by
            simp only [stepSM]
            rw [if_pos hdot]] at herr ⊢
          exact ih _ _ hrest (preAM _ rfl (Or.inr (by simp)) rfl) herr
        · rcases hp : jsParseInt token with _ | a
          · rw [show stepSM States.TYPE token r = Step.cont States.AMOUNT { r with
                errors := r.errors ++
                  [⟨STATUS_CODES.INVALID_AMOUNT, PaymentMessages.INVALID_AMOUNT⟩] } from by
              simp only [stepSM]
              rw [if_neg hdot, hp]] at herr ⊢
            exact ih _ _ hrest (preAM _ rfl (Or.inr (by simp)) rfl) herr
          · by_cases hle : a ≤ 0
            · rw [show stepSM States.TYPE token r = Step.cont States.AMOUNT { r with
                  errors := r.errors ++
                    [⟨STATUS_CODES.INVALID_AMOUNT, PaymentMessages.INVALID_AMOUNT⟩] } from by
                simp only [stepSM]
                rw [if_neg hdot, hp]
                dsimp only
                rw [if_pos hle]] at herr ⊢
              exact ih _ _ hrest (preAM _ rfl (Or.inr (by simp)) rfl) herr
            · rw [show stepSM States.TYPE token r = Step.cont States.AMOUNT { r with
                  amount := some a } from by
                simp only [stepSM]
                rw [if_neg hdot, hp]
                dsimp only
                rw [if_neg hle]] at herr ⊢
              exact ih _ _ hrest (preAM _ rfl (Or.inl ⟨a, rfl, by omega⟩) rfl) herr
      | AMOUNT =>
        rw [show stepSM States.AMOUNT token r =
            Step.cont States.CURRENCY { r with currency := some (toUpperStr token) } from by
              simp only [stepSM]] at herr ⊢
        refine ih _ _ hrest ⟨?_, ?_, ?_, ?_, ?_⟩ herr
        · intro _
          exact h1 (by decide)
        · intro _
          exact h2 (by decide)
        · intro hx
          exact absurd hx (by decide)
        · intro hx
          exact absurd hx (by decide)
        · exact h5
      | CURRENCY =>
        by_cases hk : toUpperStr token = (if r.type = some "DEBIT" then "FROM" else "TO")
        · rw [show stepSM States.CURRENCY token r = Step.cont States.FIRST_KEYWORD r from by
            simp only [stepSM]
            rw [if_pos hk]] at herr ⊢
          exact ih _ _ hrest (PreSM_step_same _ _ r ⟨h1, h2, h3, h4, h5⟩
            (by decide) (by decide) (by decide) (by decide)) herr
        · rw [show stepSM States.CURRENCY token r = Step.halt { r with errors := r.errors ++
              [⟨STATUS_CODES.INVALID_ORDER, PaymentMessages.INVALID_KEYWORD_ORDER⟩] } from by
            simp only [stepSM]
            rw [if_neg hk]] at herr ⊢
          simp at herr
      | FIRST_KEYWORD =>
        by_cases hk : toUpperStr token = "ACCOUNT"
        · rw [show stepSM States.FIRST_KEYWORD token r =
              Step.cont States.FIRST_ACCOUNT_KEYWORD r from by
            simp only [stepSM]
            rw [if_pos hk]] at herr ⊢
          exact ih _ _ hrest (PreSM_step_same _ _ r ⟨h1, h2, h3, h4, h5⟩
            (by decide) (by decide) (by decide) (by decide)) herr
        · rw [show stepSM States.FIRST_KEYWORD token r = Step.halt { r with errors := r.errors ++
              [⟨STATUS_CODES.MISSING_KEYWORD, PaymentMessages.MISSING_KEYWORD⟩] } from by
            simp only [stepSM]
            rw [if_neg hk]] at herr ⊢
          simp at herr
      | FIRST_ACCOUNT_KEYWORD =>
        by_cases hty : r.type = some "DEBIT"
        · rw [show stepSM States.FIRST_ACCOUNT_KEYWORD token r =
              Step.cont States.FIRST_ACCOUNT { r with debitAccount := some token } from by
            simp only [stepSM]
            rw [if_pos hty]] at herr ⊢
          refine ih _ _ hrest ⟨?_, ?_, ?_, ?_, ?_⟩ herr
          · intro _
            exact h1 (by decide)
          · intro _
            exact h2 (by decide)
          · intro _
            constructor
            · intro _
              exact ⟨token, rfl, htok⟩
            · intro hc
              rw [show ({ r with debitAccount := some token } : ParseResult).type = r.type
                from rfl, hty] at hc
              exact absurd hc (by simp)
          · intro hx
            exact absurd hx (by decide)
          · exact h5
        · rw [show stepSM States.FIRST_ACCOUNT_KEYWORD token r =
              Step.cont States.FIRST_ACCOUNT { r with creditAccount := some token } from by
            simp only [stepSM]
            rw [if_neg hty]] at herr ⊢
          refine ih _ _ hrest ⟨?_, ?_, ?_, ?_, ?_⟩ herr
          · intro _
            exact h1 (by decide)
          · intro _
            exact h2 (by decide)
          · intro _
            constructor
            · intro hd
              exact absurd hd hty
            · intro _
              exact ⟨token, rfl, htok⟩
          · intro hx
            exact absurd hx (by decide)
          · exact h5
      | FIRST_ACCOUNT =>
        by_cases hk : toUpperStr token = "FOR"
        · rw [show stepSM States.FIRST_ACCOUNT token r = Step.cont States.FOR r from by
            simp only [stepSM]
            rw [if_pos hk]] at herr ⊢
          exact ih _ _ hrest (PreSM_step_same _ _ r ⟨h1, h2, h3, h4, h5⟩
            (by decide) (by decide) (by decide) (by decide)) herr
        · rw [show stepSM States.FIRST_ACCOUNT token r = Step.halt { r with errors := r.errors ++
              [⟨STATUS_CODES.MISSING_KEYWORD, PaymentMessages.MISSING_KEYWORD⟩] } from by
            simp only [stepSM]
            rw [if_neg hk]] at herr ⊢
          simp at herr
      | FOR =>
        by_cases hk : toUpperStr token = (if r.type = some "DEBIT" then "CREDIT" else "DEBIT")
        · rw [show stepSM States.FOR token r = Step.cont States.SECOND_TYPE r from by
            simp only [stepSM]
            rw [if_pos hk]] at herr ⊢
          exact ih _ _ hrest (PreSM_step_same _ _ r ⟨h1, h2, h3, h4, h5⟩
            (by decide) (by decide) (by decide) (by decide)) herr
        · rw [show stepSM States.FOR token r = Step.halt { r with errors := r.errors ++
              [⟨STATUS_CODES.INVALID_ORDER, PaymentMessages.INVALID_KEYWORD_ORDER⟩] } from by
            simp only [stepSM]
            rw [if_neg hk]] at herr ⊢
          simp at herr
      | SECOND_TYPE =>
        by_cases hk : toUpperStr token = (if r.type = some "DEBIT" then "TO" else "FROM")
        · rw [show stepSM States.SECOND_TYPE token r = Step.cont States.SECOND_KEYWORD r from by
            simp only [stepSM]
            rw [if_pos hk]] at herr ⊢
          exact ih _ _ hrest (PreSM_step_same _ _ r ⟨h1, h2, h3, h4, h5⟩
            (by decide) (by decide) (by decide) (by decide)) herr
        · rw [show stepSM States.SECOND_TYPE token r = Step.halt { r with errors := r.errors ++
              [⟨STATUS_CODES.INVALID_ORDER, PaymentMessages.INVALID_KEYWORD_ORDER⟩] } from by
            simp only [stepSM]
            rw [if_neg hk]] at herr ⊢
          simp at herr
      | SECOND_KEYWORD =>
        by_cases hk : toUpperStr token = "ACCOUNT"
        · rw [show stepSM States.SECOND_KEYWORD token r =
              Step.cont States.SECOND_ACCOUNT_KEYWORD r from by
            simp only [stepSM]
            rw [if_pos hk]] at herr ⊢
          exact ih _ _ hrest (PreSM_step_same _ _ r ⟨h1, h2, h3, h4, h5⟩
            (by decide) (by decide) (by decide) (by decide)) herr
        · rw [show stepSM States.SECOND_KEYWORD token r = Step.halt { r with errors := r.errors ++
              [⟨STATUS_CODES.MISSING_KEYWORD, PaymentMessages.MISSING_KEYWORD⟩] } from by
            simp only [stepSM]
            rw [if_neg hk]] at herr ⊢
          simp at herr
      | SECOND_ACCOUNT_KEYWORD =>
        have h6 := h3 (by decide)
        have h1b := h1 (by decide)
        by_cases hty : r.type = some "DEBIT"
        · rw [show stepSM States.SECOND_ACCOUNT_KEYWORD token r =
              Step.cont States.SECOND_ACCOUNT { r with creditAccount := some token } from by
            simp only [stepSM]
            rw [if_pos hty]] at herr ⊢
          obtain ⟨d, hd, hd0⟩ := h6.1 hty
          refine ih _ _ hrest ⟨?_, ?_, ?_, ?_, ?_⟩ herr
          · intro _
            exact h1 (by decide)
          · intro _
            exact h2 (by decide)
          · intro _
            constructor
            · intro _
              exact ⟨d, hd, hd0⟩
            · intro _
              exact ⟨token, rfl, htok⟩
          · intro _
            exact ⟨⟨d, hd, hd0⟩, ⟨token, rfl, htok⟩⟩
          · exact h5
        · have hty2 : r.type = some "CREDIT" := by
            rcases h1b with hx | hx
            · exact absurd hx hty
            · exact hx
          rw [show stepSM States.SECOND_ACCOUNT_KEYWORD token r =
              Step.cont States.SECOND_ACCOUNT { r with debitAccount := some token } from by
            simp only [stepSM]
            rw [if_neg hty]] at herr ⊢
          obtain ⟨c, hc, hc0⟩ := h6.2 hty2
          refine ih _ _ hrest ⟨?_, ?_, ?_, ?_, ?_⟩ herr
          · intro _
            exact h1 (by decide)
          · intro _
            exact h2 (by decide)
          · intro _
            constructor
            · intro _
              exact ⟨token, rfl, htok⟩
            · intro _
              exact ⟨c, hc, hc0⟩
          · intro _
            exact ⟨⟨token, rfl, htok⟩, ⟨c, hc, hc0⟩⟩
          · exact h5
      | SECOND_ACCOUNT =>
        by_cases hk : toUpperStr token = "ON"
        · rw [show stepSM States.SECOND_ACCOUNT token r = Step.cont States.ON r from by
            simp only [stepSM]
            rw [if_pos hk]] at herr ⊢
          exact ih _ _ hrest (PreSM_step_same _ _ r ⟨h1, h2, h3, h4, h5⟩
            (by decide) (by decide) (by decide) (by decide)) herr
        · rw [show stepSM States.SECOND_ACCOUNT token r = Step.halt { r with errors := r.errors ++
              [⟨STATUS_CODES.MALFORMED, PaymentMessages.MALFORMED_INSTRUCTION⟩] } from by
            simp only [stepSM]
            rw [if_neg hk]] at herr ⊢
          simp at herr
      | ON =>
        by_cases hk : isValidDateFormat token
        · rw [show stepSM States.ON token r =
              Step.cont States.DATE { r with executeBy := some token } from by
            simp only [stepSM]
            rw [if_pos hk]] at herr ⊢
          refine ih _ _ hrest ⟨?_, ?_, ?_, ?_, ?_⟩ herr
          · intro _
            exact h1 (by decide)
          · intro _
            exact h2 (by decide)
          · intro _
            exact h3 (by decide)
          · intro _
            exact h4 (by decide)
          · exact Or.inr ⟨token, rfl, hk⟩
        · rw [show stepSM States.ON token r = Step.cont States.DATE { r with errors := r.errors ++
              [⟨STATUS_CODES.INVALID_DATE, PaymentMessages.INVALID_DATE_FORMAT⟩] } from by
            simp only [stepSM]
            rw [if_neg hk]] at herr ⊢
          refine ih _ _ hrest ⟨?_, ?_, ?_, ?_, ?_⟩ herr
          · intro _
            exact h1 (by decide)
          · intro _
            exact Or.inr (by simp)
          · intro _
            exact h3 (by decide)
          · intro _
            exact h4 (by decide)
          · exact h5
      | DATE =>
        rw [show stepSM States.DATE token r = Step.halt { r with errors := r.errors ++
            [⟨STATUS_CODES.MALFORMED, PaymentMessages.MALFORMED_INSTRUCTION⟩] } from by
          simp only [stepSM]] at herr ⊢
        simp at herr
      | COMPLETE =>
        exact absurd rfl hcomp

/-- An error-free parse of non-empty tokens yields a positive amount,
both account ids (non-empty strings) and a well-formed optional date. -/
theorem parse_ok_shape (tokens : List String) (hne : ∀ t ∈ tokens, t ≠ "")
    (h : (parseWithStateMachine tokens).errors = []) :
    goodFinal (parseWithStateMachine tokens) := by
  have hpre : PreSM States.START emptyParseResult := by
    refine ⟨?_, ?_, ?_, ?_, Or.inl rfl⟩ <;>
      (intro h2; exact absurd h2 (by decide))
  exact runSM_good tokens States.START emptyParseResult hne hpre h

/-! ## Validator facts on the error-free path -/

/-- No combined violations means no syntax violations. -/
theorem validate_errors_nil_parse_nil (parsed : ParseResult) (accounts : List Account)
    (h : (validateBusinessRules parsed accounts).errors = []) : parsed.errors = [] := by
  simp only [validateBusinessRules, List.append_eq_nil] at h
  exact h.1.1.1.1.1.1.1

/-- An account found by id-lookup carries that id. -/
theorem find?_beq_id (pd : String) (accounts : List Account) (da : Account)
    (h : accounts.find? (fun a => a.id == pd) = some da) : da.id = pd := by
  have hb := List.find?_some h
  exact eq_of_beq hb

/-- On the error-free path both parsed ids are distinct and resolve to
account records whose ids match them. -/
theorem validate_nil_success (parsed : ParseResult) (accounts : List Account)
    (pd pc : String)
    (hpd : parsed.debitAccount = some pd) (hpd0 : pd ≠ "")
    (hpc : parsed.creditAccount = some pc) (hpc0 : pc ≠ "")
    (h : (validateBusinessRules parsed accounts).errors = []) :
    pd ≠ pc ∧
    ∃ da ca,
      (validateBusinessRules parsed accounts).debitAccount = some da ∧
      (validateBusinessRules parsed accounts).creditAccount = some ca ∧
      accounts.find? (fun a => a.id == pd) = some da ∧
      accounts.find? (fun a => a.id == pc) = some ca ∧
      da.id = pd ∧ ca.id = pc := by
  have h2 := h
  rcases hfd : accounts.find? (fun a => a.id == pd) with _ | da <;>
    rcases hfc : accounts.find? (fun a => a.id == pc) with _ | ca <;>
    simp only [validateBusinessRules, hpd, hpc, Option.some_bind, hfd, hfc,
      List.append_eq_nil] at h2
  · obtain ⟨⟨⟨⟨⟨⟨⟨hpe, hs1⟩, hs2⟩, hsame⟩, hcur⟩, hnfd⟩, hnfc⟩, hfin⟩ := h2
    rw [if_pos hpd0] at hnfd
    exact absurd hnfd (List.cons_ne_nil _ _)
  · obtain ⟨⟨⟨⟨⟨⟨⟨hpe, hs1⟩, hs2⟩, hsame⟩, hcur⟩, hnfd⟩, hnfc⟩, hfin⟩ := h2
    rw [if_pos hpd0] at hnfd
    exact absurd hnfd (List.cons_ne_nil _ _)
  · obtain ⟨⟨⟨⟨⟨⟨⟨hpe, hs1⟩, hs2⟩, hsame⟩, hcur⟩, hnfd⟩, hnfc⟩, hfin⟩ := h2
    rw [if_pos hpc0] at hnfc
    exact absurd hnfc (List.cons_ne_nil _ _)
  · obtain ⟨⟨⟨⟨⟨⟨⟨hpe, hs1⟩, hs2⟩, hsame⟩, hcur⟩, hnfd⟩, hnfc⟩, hfin⟩ := h2
    have hne : pd ≠ pc := by
      intro hEq
      rw [if_pos (by rw [hEq])] at hsame
      exact List.cons_ne_nil _ _ hsame
    refine ⟨hne, da, ca, ?_, ?_, hfd, hfc, ?_, ?_⟩
    · simp only [validateBusinessRules, hpd, Option.some_bind, hfd]
    · simp only [validateBusinessRules, hpc, Option.some_bind, hfc]
    · exact find?_beq_id pd accounts da hfd
    · exact find?_beq_id pc accounts ca hfc

/-! ## The settlement views of the two involved accounts -/

/-- The first view matching the debit id is the debit account's view. -/
theorem settleViews_find_debit (da ca : Account) (amt : Int) (pending : Bool)
    (accounts : List Account)
    (hfind : accounts.find? (fun a => a.id == da.id) = some da)
    (hne : da.id ≠ ca.id) :
    (settleViews da ca amt pending accounts).find? (fun v => v.id == da.id) =
      some ⟨da.id, if pending then da.balance else da.balance - amt, da.balance,
        toUpperStr da.currency⟩ := by
  induction accounts with
  | nil => exact absurd hfind (by simp)
  | cons a rest ih =>
    by_cases hid : a.id = da.id
    · have hbeq : (a.id == da.id) = true := beq_iff_eq.mpr hid
      have ha : a = da := by
        simp only [List.find?_cons, hbeq] at hfind
        exact Option.some.inj hfind
      unfold settleViews
      rw [List.filterMap_cons,
        show settleView da ca amt pending a =
          some ⟨da.id, if pending then da.balance else da.balance - amt, da.balance,
            toUpperStr da.currency⟩ from by
          rw [ha]
          unfold settleView
          rw [if_pos (show (da.id == da.id) = true by simp)]]
      dsimp only
      have hv : ((⟨da.id, if pending then da.balance else da.balance - amt, da.balance,
          toUpperStr da.currency⟩ : AccountView).id == da.id) = true := by simp
      simp only [List.find?_cons, hv]
    · have hbne : (a.id == da.id) = false := by simp [hid]
      have hfind2 : rest.find? (fun x => x.id == da.id) = some da := by
        simp only [List.find?_cons, hbne] at hfind
        exact hfind
      unfold settleViews
      rw [List.filterMap_cons]
      by_cases hca : a.id = ca.id
      · rw [show settleView da ca amt pending a =
            some ⟨a.id, if pending then a.balance else a.balance + amt, a.balance,
              toUpperStr a.currency⟩ from by
            unfold settleView
            rw [if_neg (by simp [hid]), if_pos (beq_iff_eq.mpr hca)]]
        dsimp only
        have hv : (((⟨a.id, if pending then a.balance else a.balance + amt, a.balance,
            toUpperStr a.currency⟩ : AccountView)).id == da.id) = false := by simp [hid]
        simp only [List.find?_cons, hv]
        exact ih hfind2
      · rw [show settleView da ca amt pending a = none from by
          unfold settleView
          rw [if_neg (by simp [hid]), if_neg (by simp [hca])]]
        dsimp only
        exact ih hfind2

/-- The first view matching the credit id is the credit account's view. -/
theorem settleViews_find_credit (da ca : Account) (amt : Int) (pending : Bool)
    (accounts : List Account)
    (hfind : accounts.find? (fun a => a.id == ca.id) = some ca)
    (hne : da.id ≠ ca.id) :
    (settleViews da ca amt pending accounts).find? (fun v => v.id == ca.id) =
      some ⟨ca.id, if pending then ca.balance else ca.balance + amt, ca.balance,
        toUpperStr ca.currency⟩ := by
  induction accounts with
  | nil => exact absurd hfind (by simp)
  | cons a rest ih =>
    by_cases hid : a.id = ca.id
    · have hbeq : (a.id == ca.id) = true := beq_iff_eq.mpr hid
      have ha : a = ca := by
        simp only [List.find?_cons, hbeq] at hfind
        exact Option.some.inj hfind
      unfold settleViews
      rw [List.filterMap_cons,
        show settleView da ca amt pending a =
          some ⟨ca.id, if pending then ca.balance else ca.balance + amt, ca.balance,
            toUpperStr ca.currency⟩ from by
          rw [ha]
          unfold settleView
          rw [if_neg (show ¬ ((ca.id == da.id) = true) from by
            simp only [beq_iff_eq]
            intro hx
            exact hne hx.symm),
            if_pos (show (ca.id == ca.id) = true by simp)]]
      dsimp only
      have hv : ((⟨ca.id, if pending then ca.balance else ca.balance + amt, ca.balance,
          toUpperStr ca.currency⟩ : AccountView).id == ca.id) = true := by simp
      simp only [List.find?_cons, hv]
    · have hbne : (a.id == ca.id) = false := by simp [hid]
      have hfind2 : rest.find? (fun x => x.id == ca.id) = some ca := by
        simp only [List.find?_cons, hbne] at hfind
        exact hfind
      unfold settleViews
      rw [List.filterMap_cons]
      by_cases hda2 : a.id = da.id
      · rw [show settleView da ca amt pending a =
            some ⟨a.id, if pending then a.balance else a.balance - amt, a.balance,
              toUpperStr a.currency⟩ from by
            unfold settleView
            rw [if_pos (beq_iff_eq.mpr hda2)]]
        dsimp only
        have hv : (((⟨a.id, if pending then a.balance else a.balance - amt, a.balance,
            toUpperStr a.currency⟩ : AccountView)).id == ca.id) = false := by simp [hid]
        simp only [List.find?_cons, hv]
        exact ih hfind2
      · rw [show settleView da ca amt pending a = none from by
          unfold settleView
          rw [if_neg (by simp [hda2]), if_neg (by simp [hid])]]
        dsimp only
        exact ih hfind2

/-! ## Claims C1 and C2: settlement of valid instructions -/

/-- A format-valid date string is non-empty. -/
theorem validDate_ne_empty (s : String) (h : isValidDateFormat s = true) : s ≠ "" := by
  intro he
  subst he
  exact absurd h (by decide)

set_option maxHeartbeats 1000000 in
/-- Claim C1: for every account list and instruction validating with zero
violations whose execution date is absent or not in the future, the
response is "successful" with code AP00; the debit account's view shows
its input balance minus the parsed amount, the credit account's view its
input balance plus the amount, both views' `balance_before` equal the
input balances, and the sum of the two view balances equals the sum of
the two input balances. -/
theorem claim_C1 (isFuture : String → Bool) (accounts : List Account)
    (instruction : String)
    (hok : (validateBusinessRules (parseWithStateMachine (tokenize instruction))
      accounts).errors = [])
    (hdate : ∀ d, (parseWithStateMachine (tokenize instruction)).executeBy = some d →
      isFuture d = false) :
    ∃ amt da ca,
      (parseWithStateMachine (tokenize instruction)).amount = some amt ∧
      (validateBusinessRules (parseWithStateMachine (tokenize instruction))
        accounts).debitAccount = some da ∧
      (validateBusinessRules (parseWithStateMachine (tokenize instruction))
        accounts).creditAccount = some ca ∧
      (processInstruction isFuture accounts instruction).status = "successful" ∧
      (processInstruction isFuture accounts instruction).status_code = "AP00" ∧
      (processInstruction isFuture accounts instruction).accounts.find?
          (fun v => v.id == da.id) =
        some ⟨da.id, da.balance - amt, da.balance, toUpperStr da.currency⟩ ∧
      (processInstruction isFuture accounts instruction).accounts.find?
          (fun v => v.id == ca.id) =
        some ⟨ca.id, ca.balance + amt, ca.balance, toUpperStr ca.currency⟩ ∧
      da.balance - amt + (ca.balance + amt) = da.balance + ca.balance := by
  have hpe : (parseWithStateMachine (tokenize instruction)).errors = [] :=
    validate_errors_nil_parse_nil _ _ hok
  obtain ⟨⟨amt, hamt, hapos⟩, ⟨pd, hpd, hpd0⟩, ⟨pc, hpc, hpc0⟩, hdatefmt⟩ :=
    parse_ok_shape (tokenize instruction) (tokenize_ne_empty instruction) hpe
  obtain ⟨hne, da, ca, hvda, hvca, hfd, hfc, hdaid, hcaid⟩ :=
    validate_nil_success _ accounts pd pc hpd hpd0 hpc hpc0 hok
  have hdane : da.id ≠ ca.id := by
    rw [hdaid, hcaid]
    exact hne
  have hpend : isPendingOf isFuture
      (parseWithStateMachine (tokenize instruction)).executeBy = false := by
    rcases hdatefmt with h0 | ⟨s2, hs2, hvf⟩
    · rw [h0]
      rfl
    · rw [hs2]
      unfold isPendingOf
      dsimp only
      rw [hdate s2 hs2]
      exact Bool.and_false _
  have hlen : ¬ (0 < (validateBusinessRules (parseWithStateMachine (tokenize instruction))
      accounts).errors.length) := by
    rw [hok]
    simp
  have hresp : processInstruction isFuture accounts instruction =
      ⟨(parseWithStateMachine (tokenize instruction)).type,
        (parseWithStateMachine (tokenize instruction)).amount,
        (parseWithStateMachine (tokenize instruction)).currency,
        (parseWithStateMachine (tokenize instruction)).debitAccount,
        (parseWithStateMachine (tokenize instruction)).creditAccount,
        (parseWithStateMachine (tokenize instruction)).executeBy,
        "successful", PaymentMessages.TRANSACTION_SUCCESSFUL, STATUS_CODES.SUCCESSFUL,
        settleViews da ca amt false accounts⟩ := by
    simp only [processInstruction, parseInstruction]
    rw [if_neg hlen, hvda, hvca]
    dsimp only
    rw [hpend, hamt]
    simp
  refine ⟨amt, da, ca, hamt, hvda, hvca, ?_, ?_, ?_, ?_, by ring⟩
  · rw [hresp]
  · rw [hresp]
    rfl
  · rw [hresp]
    rw [← hdaid] at hfd
    simpa using settleViews_find_debit da ca amt false accounts hfd hdane
  · rw [hresp]
    rw [← hcaid] at hfc
    simpa using settleViews_find_credit da ca amt false accounts hfc hdane

set_option maxHeartbeats 1000000 in
/-- Claim C2: for every account list and instruction validating with zero
violations whose executeBy date is set and (per the future-date oracle)
strictly in the future, the response is "pending" with code AP02 and both
account views carry their input balance unchanged in `balance` and
`balance_before`. -/
theorem claim_C2 (isFuture : String → Bool) (accounts : List Account)
    (instruction : String) (d : String)
    (hok : (validateBusinessRules (parseWithStateMachine (tokenize instruction))
      accounts).errors = [])
    (hexe : (parseWithStateMachine (tokenize instruction)).executeBy = some d)
    (hfut : isFuture d = true) :
    ∃ da ca,
      (validateBusinessRules (parseWithStateMachine (tokenize instruction))
        accounts).debitAccount = some da ∧
      (validateBusinessRules (parseWithStateMachine (tokenize instruction))
        accounts).creditAccount = some ca ∧
      (processInstruction isFuture accounts instruction).status = "pending" ∧
      (processInstruction isFuture accounts instruction).status_code = "AP02" ∧
      (processInstruction isFuture accounts instruction).accounts.find?
          (fun v => v.id == da.id) =
        some ⟨da.id, da.balance, da.balance, toUpperStr da.currency⟩ ∧
      (processInstruction isFuture accounts instruction).accounts.find?
          (fun v => v.id == ca.id) =
        some ⟨ca.id, ca.balance, ca.balance, toUpperStr ca.currency⟩ := by
  have hpe : (parseWithStateMachine (tokenize instruction)).errors = [] :=
    validate_errors_nil_parse_nil _ _ hok
  obtain ⟨⟨amt, hamt, hapos⟩, ⟨pd, hpd, hpd0⟩, ⟨pc, hpc, hpc0⟩, hdatefmt⟩ :=
    parse_ok_shape (tokenize instruction) (tokenize_ne_empty instruction) hpe
  obtain ⟨hne, da, ca, hvda, hvca, hfd, hfc, hdaid, hcaid⟩ :=
    validate_nil_success _ accounts pd pc hpd hpd0 hpc hpc0 hok
  have hdane : da.id ≠ ca.id := by
    rw [hdaid, hcaid]
    exact hne
  have hd0 : d ≠ "" := by
    rcases hdatefmt with h0 | ⟨s2, hs2, hvf⟩
    · rw [h0] at hexe
      exact absurd hexe (by simp)
    · rw [hs2] at hexe
      obtain rfl := Option.some.inj hexe
      exact validDate_ne_empty _ hvf
  have hpend : isPendingOf isFuture
      (parseWithStateMachine (tokenize instruction)).executeBy = true := by
    rw [hexe]
    unfold isPendingOf
    dsimp only
    simp [hfut, hd0]
  have hlen : ¬ (0 < (validateBusinessRules (parseWithStateMachine (tokenize instruction))
      accounts).errors.length) := by
    rw [hok]
    simp
  have hresp : processInstruction isFuture accounts instruction =
      ⟨(parseWithStateMachine (tokenize instruction)).type,
        (parseWithStateMachine (tokenize instruction)).amount,
        (parseWithStateMachine (tokenize instruction)).currency,
        (parseWithStateMachine (tokenize instruction)).debitAccount,
        (parseWithStateMachine (tokenize instruction)).creditAccount,
        (parseWithStateMachine (tokenize instruction)).executeBy,
        "pending", PaymentMessages.TRANSACTION_PENDING, STATUS_CODES.PENDING,
        settleViews da ca amt true accounts⟩ := by
    simp only [processInstruction, parseInstruction]
    rw [if_neg hlen, hvda, hvca]
    dsimp only
    rw [hpend, hamt]
    simp
  refine ⟨da, ca, hvda, hvca, ?_, ?_, ?_, ?_⟩
  · rw [hresp]
  · rw [hresp]
    rfl
  · rw [hresp]
    rw [← hdaid] at hfd
    simpa using settleViews_find_debit da ca amt true accounts hfd hdane
  · rw [hresp]
    rw [← hcaid] at hfc
    simpa using settleViews_find_credit da ca amt true accounts hfc hdane

/-- Witness for C1: the spec's worked example, two USD accounts and an
immediate DEBIT of 30. -/
theorem claim_C1_witness :
    ((validateBusinessRules (parseWithStateMachine
        (tokenize "DEBIT 30 USD FROM ACCOUNT a FOR CREDIT TO ACCOUNT b"))
        [⟨"a", 230, "USD"⟩, ⟨"b", 300, "USD"⟩]).errors = []) ∧
    (∃ amt da ca,
      (parseWithStateMachine
        (tokenize "DEBIT 30 USD FROM ACCOUNT a FOR CREDIT TO ACCOUNT b")).amount = some amt ∧
      (validateBusinessRules (parseWithStateMachine
        (tokenize "DEBIT 30 USD FROM ACCOUNT a FOR CREDIT TO ACCOUNT b"))
        [⟨"a", 230, "USD"⟩, ⟨"b", 300, "USD"⟩]).debitAccount = some da ∧
      (validateBusinessRules (parseWithStateMachine
        (tokenize "DEBIT 30 USD FROM ACCOUNT a FOR CREDIT TO ACCOUNT b"))
        [⟨"a", 230, "USD"⟩, ⟨"b", 300, "USD"⟩]).creditAccount = some ca ∧
      (processInstruction (fun _ => false) [⟨"a", 230, "USD"⟩, ⟨"b", 300, "USD"⟩]
        "DEBIT 30 USD FROM ACCOUNT a FOR CREDIT TO ACCOUNT b").status = "successful" ∧
      (processInstruction (fun _ => false) [⟨"a", 230, "USD"⟩, ⟨"b", 300, "USD"⟩]
        "DEBIT 30 USD FROM ACCOUNT a FOR CREDIT TO ACCOUNT b").status_code = "AP00" ∧
      (processInstruction (fun _ => false) [⟨"a", 230, "USD"⟩, ⟨"b", 300, "USD"⟩]
        "DEBIT 30 USD FROM ACCOUNT a FOR CREDIT TO ACCOUNT b").accounts.find?
          (fun v => v.id == da.id) =
        some ⟨da.id, da.balance - amt, da.balance, toUpperStr da.currency⟩ ∧
      (processInstruction (fun _ => false) [⟨"a", 230, "USD"⟩, ⟨"b", 300, "USD"⟩]
        "DEBIT 30 USD FROM ACCOUNT a FOR CREDIT TO ACCOUNT b").accounts.find?
          (fun v => v.id == ca.id) =
        some ⟨ca.id, ca.balance + amt, ca.balance, toUpperStr ca.currency⟩ ∧
      da.balance - amt + (ca.balance + amt) = da.balance + ca.balance) :=
  ⟨rfl, claim_C1 (fun _ => false) [⟨"a", 230, "USD"⟩, ⟨"b", 300, "USD"⟩]
    "DEBIT 30 USD FROM ACCOUNT a FOR CREDIT TO ACCOUNT b" rfl (fun _ _ => rfl)⟩

/-- Witness for C2: a CREDIT scheduled for 2099-01-01 under an oracle that
declares it future. -/
theorem claim_C2_witness :
    ((validateBusinessRules (parseWithStateMachine
        (tokenize "CREDIT 300 NGN TO ACCOUNT acc-002 FOR DEBIT FROM ACCOUNT acc-001 ON 2099-01-01"))
        [⟨"acc-001", 1000, "NGN"⟩, ⟨"acc-002", 500, "NGN"⟩]).errors = []) ∧
    ((parseWithStateMachine
        (tokenize "CREDIT 300 NGN TO ACCOUNT acc-002 FOR DEBIT FROM ACCOUNT acc-001 ON 2099-01-01")).executeBy =
      some "2099-01-01") ∧
    (∃ da ca,
      (validateBusinessRules (parseWithStateMachine
        (tokenize "CREDIT 300 NGN TO ACCOUNT acc-002 FOR DEBIT FROM ACCOUNT acc-001 ON 2099-01-01"))
        [⟨"acc-001", 1000, "NGN"⟩, ⟨"acc-002", 500, "NGN"⟩]).debitAccount = some da ∧
      (validateBusinessRules (parseWithStateMachine
        (tokenize "CREDIT 300 NGN TO ACCOUNT acc-002 FOR DEBIT FROM ACCOUNT acc-001 ON 2099-01-01"))
        [⟨"acc-001", 1000, "NGN"⟩, ⟨"acc-002", 500, "NGN"⟩]).creditAccount = some ca ∧
      (processInstruction (fun _ => true)
        [⟨"acc-001", 1000, "NGN"⟩, ⟨"acc-002", 500, "NGN"⟩]
        "CREDIT 300 NGN TO ACCOUNT acc-002 FOR DEBIT FROM ACCOUNT acc-001 ON 2099-01-01").status =
        "pending" ∧
      (processInstruction (fun _ => true)
        [⟨"acc-001", 1000, "NGN"⟩, ⟨"acc-002", 500, "NGN"⟩]
        "CREDIT 300 NGN TO ACCOUNT acc-002 FOR DEBIT FROM ACCOUNT acc-001 ON 2099-01-01").status_code =
        "AP02" ∧
      (processInstruction (fun _ => true)
        [⟨"acc-001", 1000, "NGN"⟩, ⟨"acc-002", 500, "NGN"⟩]
        "CREDIT 300 NGN TO ACCOUNT acc-002 FOR DEBIT FROM ACCOUNT acc-001 ON 2099-01-01").accounts.find?
          (fun v => v.id == da.id) =
        some ⟨da.id, da.balance, da.balance, toUpperStr da.currency⟩ ∧
      (processInstruction (fun _ => true)
        [⟨"acc-001", 1000, "NGN"⟩, ⟨"acc-002", 500, "NGN"⟩]
        "CREDIT 300 NGN TO ACCOUNT acc-002 FOR DEBIT FROM ACCOUNT acc-001 ON 2099-01-01").accounts.find?
          (fun v => v.id == ca.id) =
        some ⟨ca.id, ca.balance, ca.balance, toUpperStr ca.currency⟩) :=
  ⟨rfl, rfl, claim_C2 (fun _ => true)
    [⟨"acc-001", 1000, "NGN"⟩, ⟨"acc-002", 500, "NGN"⟩]
    "CREDIT 300 NGN TO ACCOUNT acc-002 FOR DEBIT FROM ACCOUNT acc-001 ON 2099-01-01"
    "2099-01-01" rfl rfl rfl⟩

/-! ## Claim C5: shape of the response's accounts list -/

/-- A filterMap that preserves ids yields an id-sequence that is a
subsequence of the input id-sequence. -/
theorem filterMap_id_sublist (f : Account → Option AccountView) (accounts : List Account)
    (hf : ∀ a v, f a = some v → v.id = a.id) :
    ((accounts.filterMap f).map AccountView.id).Sublist (accounts.map Account.id) := by
  induction accounts with
  | nil => simp
  | cons a rest ih =>
    rw [List.filterMap_cons]
    rcases hfa : f a with _ | v
    · dsimp only
      rw [List.map_cons]
      exact ih.cons _
    · dsimp only
      rw [List.map_cons, List.map_cons, hf a v hfa]
      exact ih.cons₂ _

/-- The emitted views are at most as many as the accounts satisfying any
predicate implied by emission. -/
theorem length_filterMap_le_countP (f : Account → Option AccountView)
    (p : Account → Bool) (hf : ∀ a, (f a).isSome = true → p a = true) :
    ∀ l : List Account, (l.filterMap f).length ≤ l.countP p := by
  intro l
  induction l with
  | nil => simp
  | cons a rest ih =>
    rw [List.filterMap_cons]
    rcases hfa : f a with _ | v
    · dsimp only
      rw [List.countP_cons]
      omega
    · dsimp only
      rw [List.length_cons, List.countP_cons, hf a (by rw [hfa]; rfl),
        if_pos (rfl : true = true)]
      omega

/-- Counting a disjunction is bounded by the sum of the two counts. -/
theorem countP_or_le (p1 p2 : Account → Bool) (l : List Account) :
    l.countP (fun a => p1 a || p2 a) ≤ l.countP p1 + l.countP p2 := by
  induction l with
  | nil => simp
  | cons a rest ih =>
    rw [List.countP_cons, List.countP_cons, List.countP_cons]
    cases h1 : p1 a <;> cases h2 : p2 a <;> simp [h1, h2] <;> omega

/-- With unique ids, at most one account matches a fixed id. -/
theorem countP_id_le_one (x : Option String) :
    ∀ (l : List Account), (l.map Account.id).Nodup →
      l.countP (fun a => x == some a.id) ≤ 1 := by
  intro l
  induction l with
  | nil =>
    intro _
    simp
  | cons a rest ih =>
    intro hnd
    rw [List.map_cons, List.nodup_cons] at hnd
    obtain ⟨hnotin, hnd2⟩ := hnd
    rw [List.countP_cons]
    cases hx : (x == some a.id) with
    | false =>
      have hle := ih hnd2
      simp only [List.countP, List.countP.go]
      simp [hx]
      exact hle
    | true =>
      have hxeq : x = some a.id := eq_of_beq hx
      have hzero : rest.countP (fun b => x == some b.id) = 0 := by
        rw [List.countP_eq_zero]
        intro b hb hbx
        have hab : a.id = b.id := by
          have h2 : some a.id = some b.id := by
            rw [← hxeq]
            exact eq_of_beq hbx
          exact Option.some.inj h2
        exact hnotin (hab ▸ List.mem_map_of_mem Account.id hb)
      rw [hzero]
      simp [hx]

/-- A filterMap whose emissions are confined to two ids yields at most
two views when the input ids are unique. -/
theorem length_involved_le_two (f : Account → Option AccountView) (x y : Option String)
    (hf : ∀ a, (f a).isSome = true → x = some a.id ∨ y = some a.id)
    (l : List Account) (hnd : (l.map Account.id).Nodup) :
    (l.filterMap f).length ≤ 2 := by
  have h1 : (l.filterMap f).length ≤
      l.countP (fun a => (x == some a.id) || (y == some a.id)) := by
    refine length_filterMap_le_countP f _ ?_ l
    intro a ha
    rcases hf a ha with h | h
    · simp [h]
    · simp [h]
  have h2 := countP_or_le (fun a => x == some a.id) (fun a => y == some a.id) l
  have h3 := countP_id_le_one x l hnd
  have h4 := countP_id_le_one y l hnd
  omega

/-- Counterexample to claim C5 as stated: with one known account and an
unknown credit account the failure response (AC03) carries exactly ONE
account view — neither 0 nor 2. -/
theorem claim_C5_counterexample :
    (processInstruction (fun _ => false) [⟨"a", 500, "USD"⟩]
      "DEBIT 100 USD FROM ACCOUNT a FOR CREDIT TO ACCOUNT xyz").accounts.length = 1 ∧
    ¬ ((processInstruction (fun _ => false) [⟨"a", 500, "USD"⟩]
        "DEBIT 100 USD FROM ACCOUNT a FOR CREDIT TO ACCOUNT xyz").accounts.length = 0 ∨
      (processInstruction (fun _ => false) [⟨"a", 500, "USD"⟩]
        "DEBIT 100 USD FROM ACCOUNT a FOR CREDIT TO ACCOUNT xyz").accounts.length = 2) := by
  constructor
  · decide
  · decide

set_option maxHeartbeats 1000000 in
/-- Claim C5 (amended): in every response the accounts field is the
subsequence of the input list restricted to the involved account ids, in
input order (its id-sequence is a sublist of the input id-sequence, every
view's id is an involved id, and every input account carrying an involved
id contributes a view); when the input ids are unique it has at most two
entries — but a parseable failure involving only one existing account
carries exactly one entry, so "0 or exactly 2" does not hold (see the
counterexample). -/
theorem claim_C5 (isFuture : String → Bool) (accounts : List Account)
    (instruction : String) :
    ((processInstruction isFuture accounts instruction).accounts.map
      AccountView.id).Sublist (accounts.map Account.id) ∧
    (∀ view ∈ (processInstruction isFuture accounts instruction).accounts,
      (processInstruction isFuture accounts instruction).debit_account = some view.id ∨
      (processInstruction isFuture accounts instruction).credit_account = some view.id) ∧
    (∀ acct ∈ accounts,
      ((processInstruction isFuture accounts instruction).debit_account = some acct.id ∨
        (processInstruction isFuture accounts instruction).credit_account = some acct.id) →
      ∃ view ∈ (processInstruction isFuture accounts instruction).accounts,
        view.id = acct.id) ∧
    ((accounts.map Account.id).Nodup →
      (processInstruction isFuture accounts instruction).accounts.length ≤ 2) := by
  by_cases hlen : 0 < (validateBusinessRules (parseWithStateMachine (tokenize instruction))
      accounts).errors.length
  · rcases hsel : selectPrimaryError (validateBusinessRules
        (parseWithStateMachine (tokenize instruction)) accounts).errors with _ | err
    · have hresp : processInstruction isFuture accounts instruction =
          genericMalformedResponse := by
        simp only [processInstruction, parseInstruction]
        rw [if_pos hlen, hsel]
      rw [hresp]
      refine ⟨by simp [genericMalformedResponse], ?_, ?_, ?_⟩
      · intro view hview
        simp [genericMalformedResponse] at hview
      · intro acct _ hinv
        rcases hinv with h | h <;> simp [genericMalformedResponse] at h
      · intro _
        simp [genericMalformedResponse]
    · by_cases hcode : err.code = STATUS_CODES.MALFORMED ∨
          err.code = STATUS_CODES.MISSING_KEYWORD ∨ err.code = STATUS_CODES.INVALID_ORDER
      · have hresp : processInstruction isFuture accounts instruction =
            ⟨none, none, none, none, none, none, "failed",
              err.message, err.code, []⟩ := by
          simp only [processInstruction, parseInstruction]
          rw [if_pos hlen, hsel]
          dsimp only
          rw [if_pos hcode]
        rw [hresp]
        refine ⟨by simp, ?_, ?_, ?_⟩
        · intro view hview
          simp at hview
        · intro acct _ hinv
          rcases hinv with h | h <;> simp at h
        · intro _
          simp
      · have hresp : processInstruction isFuture accounts instruction =
            ⟨(parseWithStateMachine (tokenize instruction)).type,
              (parseWithStateMachine (tokenize instruction)).amount,
              (parseWithStateMachine (tokenize instruction)).currency,
              (parseWithStateMachine (tokenize instruction)).debitAccount,
              (parseWithStateMachine (tokenize instruction)).creditAccount,
              (parseWithStateMachine (tokenize instruction)).executeBy,
              "failed", err.message, err.code,
              involvedViews (parseWithStateMachine (tokenize instruction)) accounts⟩ := by
          simp only [processInstruction, parseInstruction]
          rw [if_pos hlen, hsel]
          dsimp only
          rw [if_neg hcode]
        rw [hresp]
        dsimp only
        refine ⟨?_, ?_, ?_, ?_⟩
        · unfold involvedViews
          apply filterMap_id_sublist
          intro a v hfa
          by_cases hcond : (parseWithStateMachine (tokenize instruction)).debitAccount ==
              some a.id ∨ (parseWithStateMachine (tokenize instruction)).creditAccount ==
              some a.id
          · rw [if_pos hcond] at hfa
            obtain rfl := Option.some.inj hfa
            rfl
          · rw [if_neg hcond] at hfa
            exact absurd hfa (by simp)
        · intro view hview
          obtain ⟨a, _, hfa⟩ := List.mem_filterMap.mp hview
          by_cases hcond : (parseWithStateMachine (tokenize instruction)).debitAccount ==
              some a.id ∨ (parseWithStateMachine (tokenize instruction)).creditAccount ==
              some a.id
          · rw [if_pos hcond] at hfa
            obtain rfl := Option.some.inj hfa
            rcases hcond with h | h
            · exact Or.inl (eq_of_beq h)
            · exact Or.inr (eq_of_beq h)
          · rw [if_neg hcond] at hfa
            exact absurd hfa (by simp)
        · intro acct hacct hinv
          have hcond : (parseWithStateMachine (tokenize instruction)).debitAccount ==
              some acct.id ∨ (parseWithStateMachine (tokenize instruction)).creditAccount ==
              some acct.id := by
            rcases hinv with h | h
            · exact Or.inl (beq_iff_eq.mpr h)
            · exact Or.inr (beq_iff_eq.mpr h)
          refine ⟨⟨acct.id, acct.balance, acct.balance, toUpperStr acct.currency⟩, ?_, rfl⟩
          exact List.mem_filterMap.mpr ⟨acct, hacct, by rw [if_pos hcond]⟩
        · intro hnd
          unfold involvedViews
          refine length_involved_le_two _
            (parseWithStateMachine (tokenize instruction)).debitAccount
            (parseWithStateMachine (tokenize instruction)).creditAccount ?_ accounts hnd
          intro a ha
          by_cases hcond : (parseWithStateMachine (tokenize instruction)).debitAccount ==
              some a.id ∨ (parseWithStateMachine (tokenize instruction)).creditAccount ==
              some a.id
          · rcases hcond with h | h
            · exact Or.inl (eq_of_beq h)
            · exact Or.inr (eq_of_beq h)
          · rw [if_neg hcond] at ha
            simp at ha
  · have hok : (validateBusinessRules (parseWithStateMachine (tokenize instruction))
        accounts).errors = [] := by
      have h0 : (validateBusinessRules (parseWithStateMachine (tokenize instruction))
          accounts).errors.length = 0 := by omega
      exact List.length_eq_zero.mp h0
    have hpe := validate_errors_nil_parse_nil _ _ hok
    obtain ⟨⟨amt, hamt, _⟩, ⟨pd, hpd, hpd0⟩, ⟨pc, hpc, hpc0⟩, _⟩ :=
      parse_ok_shape (tokenize instruction) (tokenize_ne_empty instruction) hpe
    obtain ⟨hne, da, ca, hvda, hvca, hfd, hfc, hdaid, hcaid⟩ :=
      validate_nil_success _ accounts pd pc hpd hpd0 hpc hpc0 hok
    have hdane : da.id ≠ ca.id := by
      rw [hdaid, hcaid]
      exact hne
    have hresp : processInstruction isFuture accounts instruction =
        ⟨(parseWithStateMachine (tokenize instruction)).type,
          (parseWithStateMachine (tokenize instruction)).amount,
          (parseWithStateMachine (tokenize instruction)).currency,
          (parseWithStateMachine (tokenize instruction)).debitAccount,
          (parseWithStateMachine (tokenize instruction)).creditAccount,
          (parseWithStateMachine (tokenize instruction)).executeBy,
          (if isPendingOf isFuture (parseWithStateMachine (tokenize instruction)).executeBy
            then "pending" else "successful"),
          (if isPendingOf isFuture (parseWithStateMachine (tokenize instruction)).executeBy
            then PaymentMessages.TRANSACTION_PENDING
            else PaymentMessages.TRANSACTION_SUCCESSFUL),
          (if isPendingOf isFuture (parseWithStateMachine (tokenize instruction)).executeBy
            then STATUS_CODES.PENDING else STATUS_CODES.SUCCESSFUL),
          settleViews da ca ((parseWithStateMachine (tokenize instruction)).amount.getD 0)
            (isPendingOf isFuture (parseWithStateMachine (tokenize instruction)).executeBy)
            accounts⟩ := by
      simp only [processInstruction, parseInstruction]
      rw [if_neg hlen, hvda, hvca]
    rw [hresp]
    dsimp only
    refine ⟨?_, ?_, ?_, ?_⟩
    · unfold settleViews
      apply filterMap_id_sublist
      intro a v hfa
      unfold settleView at hfa
      by_cases h1 : (a.id == da.id) = true
      · rw [if_pos h1] at hfa
        obtain rfl := Option.some.inj hfa
        rfl
      · rw [if_neg h1] at hfa
        by_cases h2 : (a.id == ca.id) = true
        · rw [if_pos h2] at hfa
          obtain rfl := Option.some.inj hfa
          rfl
        · rw [if_neg h2] at hfa
          exact absurd hfa (by simp)
    · intro view hview
      obtain ⟨a, _, hfa⟩ := List.mem_filterMap.mp hview
      unfold settleView at hfa
      by_cases h1 : (a.id == da.id) = true
      · rw [if_pos h1] at hfa
        obtain rfl := Option.some.inj hfa
        refine Or.inl ?_
        rw [hpd]
        have : a.id = da.id := eq_of_beq h1
        rw [show ((⟨a.id, if isPendingOf isFuture (parseWithStateMachine
            (tokenize instruction)).executeBy then a.balance else a.balance -
            (parseWithStateMachine (tokenize instruction)).amount.getD 0, a.balance,
            toUpperStr a.currency⟩ : AccountView)).id = a.id from rfl, this, hdaid]
      · rw [if_neg h1] at hfa
        by_cases h2 : (a.id == ca.id) = true
        · rw [if_pos h2] at hfa
          obtain rfl := Option.some.inj hfa
          refine Or.inr ?_
          rw [hpc]
          have : a.id = ca.id := eq_of_beq h2
          rw [show ((⟨a.id, if isPendingOf isFuture (parseWithStateMachine
              (tokenize instruction)).executeBy then a.balance else a.balance +
              (parseWithStateMachine (tokenize instruction)).amount.getD 0, a.balance,
              toUpperStr a.currency⟩ : AccountView)).id = a.id from rfl, this, hcaid]
        · rw [if_neg h2] at hfa
          exact absurd hfa (by simp)
    · intro acct hacct hinv
      rcases hinv with h | h
      · have hid : acct.id = da.id := by
          rw [hpd] at h
          rw [hdaid]
          exact (Option.some.inj h).symm
        refine ⟨⟨acct.id, if isPendingOf isFuture (parseWithStateMachine
            (tokenize instruction)).executeBy then acct.balance else acct.balance -
            (parseWithStateMachine (tokenize instruction)).amount.getD 0, acct.balance,
            toUpperStr acct.currency⟩, ?_, rfl⟩
        refine List.mem_filterMap.mpr ⟨acct, hacct, ?_⟩
        unfold settleView
        rw [if_pos (beq_iff_eq.mpr hid)]
      · have hid : acct.id = ca.id := by
          rw [hpc] at h
          rw [hcaid]
          exact (Option.some.inj h).symm
        have hnotda : ¬ ((acct.id == da.id) = true) := by
          simp only [beq_iff_eq]
          rw [hid]
          intro hx
          exact hdane hx.symm
        refine ⟨⟨acct.id, if isPendingOf isFuture (parseWithStateMachine
            (tokenize instruction)).executeBy then acct.balance else acct.balance +
            (parseWithStateMachine (tokenize instruction)).amount.getD 0, acct.balance,
            toUpperStr acct.currency⟩, ?_, rfl⟩
        refine List.mem_filterMap.mpr ⟨acct, hacct, ?_⟩
        unfold settleView
        rw [if_neg hnotda, if_pos (beq_iff_eq.mpr hid)]
    · intro hnd
      unfold settleViews
      refine length_involved_le_two _ (some da.id) (some ca.id) ?_ accounts hnd
      intro a ha
      unfold settleView at ha
      by_cases h1 : (a.id == da.id) = true
      · exact Or.inl (congrArg some (eq_of_beq h1).symm)
      · rw [if_neg h1] at ha
        by_cases h2 : (a.id == ca.id) = true
        · exact Or.inr (congrArg some (eq_of_beq h2).symm)
        · rw [if_neg h2] at ha
          simp at ha

/-- Witness for the amended C5: the spec's order-preservation example,
input accounts [b, a, c] and an instruction referencing a and b; the
response's views are [b, a] — two entries, in input order. -/
theorem claim_C5_witness :
    (([⟨"b", 300, "USD"⟩, ⟨"a", 230, "USD"⟩, ⟨"c", 100, "USD"⟩].map Account.id).Nodup) ∧
    (processInstruction (fun _ => false)
      [⟨"b", 300, "USD"⟩, ⟨"a", 230, "USD"⟩, ⟨"c", 100, "USD"⟩]
      "DEBIT 30 USD FROM ACCOUNT a FOR CREDIT TO ACCOUNT b").accounts.length ≤ 2 ∧
    ((processInstruction (fun _ => false)
      [⟨"b", 300, "USD"⟩, ⟨"a", 230, "USD"⟩, ⟨"c", 100, "USD"⟩]
      "DEBIT 30 USD FROM ACCOUNT a FOR CREDIT TO ACCOUNT b").accounts.map
        AccountView.id).Sublist
      ([⟨"b", 300, "USD"⟩, ⟨"a", 230, "USD"⟩, ⟨"c", 100, "USD"⟩].map Account.id) ∧
    (processInstruction (fun _ => false)
      [⟨"b", 300, "USD"⟩, ⟨"a", 230, "USD"⟩, ⟨"c", 100, "USD"⟩]
      "DEBIT 30 USD FROM ACCOUNT a FOR CREDIT TO ACCOUNT b").accounts.map
        AccountView.id = ["b", "a"] :=
  ⟨by decide,
    (claim_C5 (fun _ => false)
      [⟨"b", 300, "USD"⟩, ⟨"a", 230, "USD"⟩, ⟨"c", 100, "USD"⟩]
      "DEBIT 30 USD FROM ACCOUNT a FOR CREDIT TO ACCOUNT b").2.2.2 (by decide),
    (claim_C5 (fun _ => false)
      [⟨"b", 300, "USD"⟩, ⟨"a", 230, "USD"⟩, ⟨"c", 100, "USD"⟩]
      "DEBIT 30 USD FROM ACCOUNT a FOR CREDIT TO ACCOUNT b").1,
    by decide⟩
